import Mathlib

/-!
# Verification of the vshot-server session orchestrator

This file gives a shallow embedding, in Lean 4, of the core data model and
operations of the vshot-server repository (rooms, sessions, the merge
dispatch guard, the grace-period room manager, the two signaling servers,
the segment-upload bookkeeping and the frame-layout engine), together with
theorems settling the specification claims about them.

Conventions:
* JavaScript `Map`s keyed by strings become function maps
  `String → Option α` (`set` is a pointwise if-update, `delete` maps the
  key to `none`); the client registries, whose iteration order matters for
  broadcasts, become lists in insertion order.
* JavaScript numbers used by the layout engine become `ℚ` (the layout code
  only performs `+ - * /` and `Math.round`-style rounding, all exact on ℚ);
  `Math.round x` is modelled as `⌊x + 1/2⌋ : ℤ`, which matches JS for every
  argument.
* `setTimeout`/`setImmediate` callbacks become explicit events of a step
  relation: scheduling records a pending task in the state, and a separate
  trace event runs it; `clearTimeout` removes the pending task.
* `send`/`close`/`broadcast` side effects become lists of outputs returned
  alongside the new state.
-/

namespace VShot

/-! ## Layout engine (VideoComposer)

Embeds `toEven`, `resolvePositions` and `calculateGridRatios` from the
video-composer module.  JS numbers are modelled as ℚ, pixel results as ℤ.
-/

/-- JS `Math.round` on an exact rational: `⌊q + 1/2⌋` (half-up, also for
negative arguments, exactly as in JavaScript). -/
def jsRound (q : ℚ) : ℤ := ⌊q + 1/2⌋

/-- `toEven` from the video composer: `Math.round(n)`, then subtract 1 if the
result is odd ("Round down to nearest even number (required for yuv420p)"). -/
def toEven (n : ℚ) : ℤ :=
  let rounded := jsRound n
  if rounded % 2 = 0 then rounded else rounded - 1

/-- `FrameSlotRatio`: a resolution-independent slot rectangle (fractions of
the canvas) with a stacking order. -/
structure FrameSlotRatio where
  x : ℚ
  y : ℚ
  width : ℚ
  height : ℚ
  zIndex : ℤ
deriving DecidableEq, Repr

/-- `FramePosition`: a pixel-based slot rectangle. -/
structure FramePosition where
  x : ℤ
  y : ℤ
  width : ℤ
  height : ℤ
  zIndex : ℤ
deriving DecidableEq, Repr

/-- `resolvePositions`: convert ratio-based positions to pixel-based ones.
`x`/`y` use `Math.round`, `width`/`height` use `toEven`. -/
def resolvePositions (ratios : List FrameSlotRatio) (width height : ℚ) :
    List FramePosition :=
  ratios.map fun ratio =>
    { x := jsRound (ratio.x * width)
      y := jsRound (ratio.y * height)
      width := toEven (ratio.width * width)
      height := toEven (ratio.height * height)
      zIndex := ratio.zIndex }

/-- `calculateGridRatios`: grid positions as ratios; the nested
`for row / for col` loops become `bind`/`map` over `List.range`
(row-major order, exactly as the pushes happen in the source). -/
def calculateGridRatios (cols rows : Nat) (padding gap : ℚ) :
    List FrameSlotRatio :=
  let availableWidth := 1 - padding * 2 - gap * ((cols : ℚ) - 1)
  let availableHeight := 1 - padding * 2 - gap * ((rows : ℚ) - 1)
  let cellWidth := availableWidth / (cols : ℚ)
  let cellHeight := availableHeight / (rows : ℚ)
  (List.range rows).flatMap fun (row : ℕ) =>
    (List.range cols).map fun (col : ℕ) =>
      { x := padding + (col : ℚ) * (cellWidth + gap)
        y := padding + (row : ℚ) * (cellHeight + gap)
        width := cellWidth
        height := cellHeight
        zIndex := Int.ofNat (row * cols + col) }

/-- The even integer nearest to `q`, rounding down on ties: the spec's
stated rounding rule for resolved slot dimensions (written from the spec's
words, for comparison with the source's `toEven`). -/
def nearestEvenTieDown (q : ℚ) : ℤ :=
  let lo := 2 * ⌊q / 2⌋
  if q - (lo : ℚ) ≤ ((lo : ℚ) + 2) - q then lo else lo + 2

lemma toEven_def (q : ℚ) :
    toEven q = if jsRound q % 2 = 0 then jsRound q else jsRound q - 1 := rfl

lemma flatMap_range_length {α : Type} (g : ℕ → ℕ → α) (rows cols : ℕ) :
    ((List.range rows).flatMap fun r => (List.range cols).map (g r)).length =
      rows * cols := by
  induction rows with
  | zero => simp
  | succ n ih => rw [List.range_succ]; simp [ih, Nat.succ_mul]

lemma flatMap_range_getElem {α : Type} (g : ℕ → ℕ → α) (rows cols row col : ℕ)
    (hr : row < rows) (hc : col < cols) :
    ((List.range rows).flatMap fun r =>
        (List.range cols).map (g r))[row * cols + col]? = some (g row col) := by
  induction rows with
  | zero => omega
  | succ n ih =>
    rw [List.range_succ, List.flatMap_append]
    rcases Nat.lt_succ_iff_lt_or_eq.mp hr with h | h
    · have hlen :
          row * cols + col <
            ((List.range n).flatMap fun r => (List.range cols).map (g r)).length := by
        rw [flatMap_range_length]
        calc row * cols + col < row * cols + cols := by omega
        _ = (row + 1) * cols := by ring
        _ ≤ n * cols := Nat.mul_le_mul_right _ h
      rw [List.getElem?_append_left hlen]
      exact ih h
    · subst h
      have hlen :
          ((List.range row).flatMap fun r => (List.range cols).map (g r)).length ≤
            row * cols + col := by
        rw [flatMap_range_length]; omega
      rw [List.getElem?_append_right hlen, flatMap_range_length]
      simp [List.getElem?_map, List.getElem?_range hc]

/-- C6 counterexample: the source's `toEven` is not "nearest even, ties
down".  For the slot ratio `width = 17/50` at canvas width `10` the product
is `3.4`; the nearest even integer is `4`, but `toEven` produces `2`
(`Math.round(3.4) = 3`, odd, minus one).  Moreover for the strictly
positive ratio `height = 3/500` at canvas height `100` (product `0.6`) the
resolved extent is `0`, contradicting "never producing zero or negative
extents for a non-empty ratio". -/
theorem c6_counterexample :
    resolvePositions
        [{ x := 0, y := 0, width := 17/50, height := 3/500, zIndex := 0 }] 10 100 =
      [{ x := 0, y := 0, width := 2, height := 0, zIndex := 0 }] ∧
    nearestEvenTieDown ((17 : ℚ)/50 * 10) = 4 ∧
    ((2 : ℤ) ≠ 4) ∧ (0 : ℚ) < 3/500 := by
  refine ⟨?_, ?_, by norm_num, by norm_num⟩
  · simp only [resolvePositions, List.map]
    norm_num [toEven, jsRound, FramePosition.mk.injEq]
  · norm_num [nearestEvenTieDown]

/-- C6 (amended): for every slot ratio rectangle and target canvas size,
the resolved `x`/`y` equal `round(ratio·dimension)` (= `⌊v + 1/2⌋`), and
the resolved `width`/`height` are the even integer obtained by rounding
`ratio·dimension` and then decrementing an odd result — i.e. the unique
even `e` with `e ≤ round(v) ≤ e + 1`; they are never negative for a
non-negative product (though they may be `0` for small positive ratios),
and the stacking order is passed through. -/
theorem c6_resolvePositions_rounding (ratios : List FrameSlotRatio)
    (w h : ℚ) (i : ℕ) (hi : i < ratios.length) :
    ∃ p, (resolvePositions ratios w h)[i]? = some p ∧
      p.x = ⌊(ratios.get ⟨i, hi⟩).x * w + 1/2⌋ ∧
      p.y = ⌊(ratios.get ⟨i, hi⟩).y * h + 1/2⌋ ∧
      p.width % 2 = 0 ∧
      p.width ≤ jsRound ((ratios.get ⟨i, hi⟩).width * w) ∧
      jsRound ((ratios.get ⟨i, hi⟩).width * w) ≤ p.width + 1 ∧
      (0 ≤ (ratios.get ⟨i, hi⟩).width * w → 0 ≤ p.width) ∧
      p.height % 2 = 0 ∧
      p.height ≤ jsRound ((ratios.get ⟨i, hi⟩).height * h) ∧
      jsRound ((ratios.get ⟨i, hi⟩).height * h) ≤ p.height + 1 ∧
      (0 ≤ (ratios.get ⟨i, hi⟩).height * h → 0 ≤ p.height) ∧
      p.zIndex = (ratios.get ⟨i, hi⟩).zIndex := by
  set r := ratios.get ⟨i, hi⟩ with hr
  have hmem : (resolvePositions ratios w h)[i]? = some
      { x := jsRound (r.x * w), y := jsRound (r.y * h),
        width := toEven (r.width * w), height := toEven (r.height * h),
        zIndex := r.zIndex } := by
    simp only [resolvePositions, List.getElem?_map]
    rw [List.getElem?_eq_getElem hi]
    rfl
  have hwnn : 0 ≤ r.width * w → (0 : ℤ) ≤ toEven (r.width * w) := by
    intro hpos
    have h0 : (0 : ℤ) ≤ jsRound (r.width * w) := by unfold jsRound; positivity
    rw [toEven_def]; split <;> omega
  have hhnn : 0 ≤ r.height * h → (0 : ℤ) ≤ toEven (r.height * h) := by
    intro hpos
    have h0 : (0 : ℤ) ≤ jsRound (r.height * h) := by unfold jsRound; positivity
    rw [toEven_def]; split <;> omega
  refine ⟨_, hmem, rfl, rfl, ?_, ?_, ?_, hwnn, ?_, ?_, ?_, hhnn, rfl⟩
  all_goals dsimp only
  all_goals rw [toEven_def]
  all_goals split <;> omega

/-- Witness for `c6_resolvePositions_rounding` at a concrete layout. -/
theorem c6_resolvePositions_rounding_witness :
    (0 < ([{ x := 1/2, y := 1/2, width := 1/2, height := 1/2, zIndex := 0 }] :
        List FrameSlotRatio).length) ∧
    ∃ p, (resolvePositions
        [{ x := 1/2, y := 1/2, width := 1/2, height := 1/2, zIndex := 0 }]
        10 10)[0]? = some p ∧ p.width % 2 = 0 ∧ 0 ≤ p.width := by
  refine ⟨by norm_num, ?_⟩
  obtain ⟨p, h1, _, _, h4, _, _, h7, _⟩ :=
    c6_resolvePositions_rounding
      [{ x := 1/2, y := 1/2, width := 1/2, height := 1/2, zIndex := 0 }]
      10 10 0 (by norm_num)
  exact ⟨p, h1, h4, h7 (by norm_num)⟩

/-- C7: the grid helper returns `cols·rows` equal-sized ratio rectangles in
row-major slot order; the cell at `(row, col)` sits at index
`row·cols + col`, has width `(1 − 2·padding − (cols−1)·gap)/cols`, height
`(1 − 2·padding − (rows−1)·gap)/rows`, and position
`x = padding + col·(cellWidth + gap)`, `y = padding + row·(cellHeight + gap)`. -/
theorem c7_calculateGridRatios (cols rows : ℕ) (padding gap : ℚ)
    (row col : ℕ) (hr : row < rows) (hc : col < cols) :
    (calculateGridRatios cols rows padding gap).length = cols * rows ∧
    (calculateGridRatios cols rows padding gap)[row * cols + col]? = some
      { x := padding + (col : ℚ) *
               ((1 - 2 * padding - ((cols : ℚ) - 1) * gap) / (cols : ℚ) + gap)
        y := padding + (row : ℚ) *
               ((1 - 2 * padding - ((rows : ℚ) - 1) * gap) / (rows : ℚ) + gap)
        width := (1 - 2 * padding - ((cols : ℚ) - 1) * gap) / (cols : ℚ)
        height := (1 - 2 * padding - ((rows : ℚ) - 1) * gap) / (rows : ℚ)
        zIndex := Int.ofNat (row * cols + col) } := by
  unfold calculateGridRatios
  constructor
  · rw [flatMap_range_length]
    exact Nat.mul_comm rows cols
  · rw [flatMap_range_getElem _ rows cols row col hr hc]
    congr 1
    simp only [FrameSlotRatio.mk.injEq]
    refine ⟨by ring, by ring, by ring, by ring, trivial⟩

/-- Witness for `c7_calculateGridRatios`: the 2×2 grid with the source's
default padding `0.025` and gap `0.0125`, at cell `(1, 1)`. -/
theorem c7_calculateGridRatios_witness :
    (1 < 2) ∧
    (calculateGridRatios 2 2 (1/40) (1/80)).length = 2 * 2 ∧
    (calculateGridRatios 2 2 (1/40) (1/80))[1 * 2 + 1]? = some
      { x := 1/40 + (1 : ℚ) *
               ((1 - 2 * (1/40) - ((2 : ℚ) - 1) * (1/80)) / (2 : ℚ) + 1/80)
        y := 1/40 + (1 : ℚ) *
               ((1 - 2 * (1/40) - ((2 : ℚ) - 1) * (1/80)) / (2 : ℚ) + 1/80)
        width := (1 - 2 * (1/40) - ((2 : ℚ) - 1) * (1/80)) / (2 : ℚ)
        height := (1 - 2 * (1/40) - ((2 : ℚ) - 1) * (1/80)) / (2 : ℚ)
        zIndex := Int.ofNat (1 * 2 + 1) } :=
  ⟨by norm_num,
   c7_calculateGridRatios 2 2 (1/40) (1/80) 1 1 (by norm_num) (by norm_num)⟩

/-! ## V3RoomManager (rotating-guest mode)

Embeds `src/services/v3/V3RoomManager.ts`.  The JS `Map<string, V3Room>`
becomes a function `String → Option V3Room` (`Map.set` = pointwise update,
`Map.delete` = pointwise erase); `new Date()` timestamps become an explicit
`now : ℕ` argument; `uuidv4()` session ids become a fresh-counter field
`nextSessionId` (all that matters about uuids here is freshness).
-/

/-- Session status: `'in_progress' | 'completed'`. -/
inductive SessionStatus where
  | inProgress
  | completed
deriving DecidableEq, Repr

/-- Upload role: `'host' | 'guest'`. -/
inductive Role where
  | host
  | guest
deriving DecidableEq, Repr

/-- `ChromaKeySettings` from the shared types. -/
structure ChromaKeySettings where
  enabled : Bool
  color : String
  similarity : ℚ
  smoothness : ℚ
deriving DecidableEq, Repr

/-- `HostSettings`: the persisted per-room host settings. -/
structure HostSettings where
  chromaKey : ChromaKeySettings
  selectedFrameLayoutId : String
  recordingDuration : ℕ
  captureInterval : ℕ
deriving DecidableEq, Repr

/-- `V3Session`: one guest tenure's capture round. -/
structure V3Session where
  sessionId : ℕ
  guestId : String
  hostPhotoUrl : Option String
  guestPhotoUrl : Option String
  mergedPhotoUrl : Option String
  frameResultUrl : Option String
  status : SessionStatus
  createdAt : ℕ
  completedAt : Option ℕ
deriving DecidableEq, Repr

/-- `V3Room`: persistent container created by the host. -/
structure V3Room where
  roomId : String
  hostId : String
  currentGuestId : Option String
  hostSettings : HostSettings
  completedSessions : List V3Session
  createdAt : ℕ
  lastActivityAt : ℕ
deriving DecidableEq, Repr

/-- The `V3RoomManager` state: its `rooms` map plus a fresh-id counter
standing in for `uuidv4`. -/
structure V3RoomManager where
  rooms : String → Option V3Room
  nextSessionId : ℕ

/-- The manager with no rooms. -/
def V3RoomManager.init : V3RoomManager :=
  { rooms := fun _ => none, nextSessionId := 0 }

namespace V3

/-- The filter used by `getCurrentSession`:
`s.guestId === room.currentGuestId && s.status === 'in_progress'`. -/
def sessionMatchesCurrent (g : String) (s : V3Session) : Bool :=
  s.guestId == g && s.status == SessionStatus.inProgress

/-- Update the last element of a list satisfying `p` (the JS code mutates
the session object returned by `getCurrentSession`, which is
`sessions[sessions.length - 1]` of the filtered list). -/
def updateLastMatching {α : Type} (p : α → Bool) (f : α → α) : List α → List α
  | [] => []
  | x :: xs =>
    if xs.any p then x :: updateLastMatching p f xs
    else if p x then f x :: xs
    else x :: xs

/-- `createRoom(roomId, hostId, initialSettings)`. -/
def createRoom (m : V3RoomManager) (roomId hostId : String)
    (initialSettings : HostSettings) (now : ℕ) : V3RoomManager × V3Room :=
  let room : V3Room :=
    { roomId := roomId
      hostId := hostId
      currentGuestId := none
      hostSettings := initialSettings
      completedSessions := []
      createdAt := now
      lastActivityAt := now }
  ({ m with rooms := fun k => if k = roomId then some room else m.rooms k }, room)

/-- `getRoom(roomId)`. -/
def getRoom (m : V3RoomManager) (roomId : String) : Option V3Room :=
  m.rooms roomId

/-- `updateHostSettings(roomId, settings)`: the spread-merge
`{...room.hostSettings, ...settings}` is modelled as applying the merge
function `patch`. -/
def updateHostSettings (m : V3RoomManager) (roomId : String)
    (patch : HostSettings → HostSettings) (now : ℕ) : V3RoomManager × Bool :=
  match m.rooms roomId with
  | none => (m, false)
  | some room =>
    let room' := { room with hostSettings := patch room.hostSettings
                             lastActivityAt := now }
    ({ m with rooms := fun k => if k = roomId then some room' else m.rooms k }, true)

/-- `joinGuest(roomId, guestId)`: rejected if the room is absent or a guest
is attached; otherwise creates a fresh `in_progress` session and attaches
the guest. -/
def joinGuest (m : V3RoomManager) (roomId guestId : String) (now : ℕ) :
    V3RoomManager × Option V3Session :=
  match m.rooms roomId with
  | none => (m, none)
  | some room =>
    match room.currentGuestId with
    | some _ => (m, none)
    | none =>
      let session : V3Session :=
        { sessionId := m.nextSessionId
          guestId := guestId
          hostPhotoUrl := none
          guestPhotoUrl := none
          mergedPhotoUrl := none
          frameResultUrl := none
          status := SessionStatus.inProgress
          createdAt := now
          completedAt := none }
      let room' := { room with currentGuestId := some guestId
                               completedSessions := room.completedSessions ++ [session]
                               lastActivityAt := now }
      ({ m with rooms := fun k => if k = roomId then some room' else m.rooms k
                nextSessionId := m.nextSessionId + 1 }, some session)

/-- `getCurrentSession(roomId)`: the latest `in_progress` session of the
currently attached guest, if any. -/
def getCurrentSession (m : V3RoomManager) (roomId : String) : Option V3Session :=
  match m.rooms roomId with
  | none => none
  | some room =>
    match room.currentGuestId with
    | none => none
    | some g => (room.completedSessions.filter (sessionMatchesCurrent g)).getLast?

/-- Common skeleton of `updateSessionPhoto` / `updateSessionMergedPhoto` /
`completeSession`: look up the current session, mutate it in place (the JS
code mutates the aliased object), touch `lastActivityAt`, and return the
mutated session. -/
def mutateCurrentSession (m : V3RoomManager) (roomId : String)
    (f : V3Session → V3Session) (now : ℕ) : V3RoomManager × Option V3Session :=
  match m.rooms roomId with
  | none => (m, none)
  | some room =>
    match room.currentGuestId with
    | none => (m, none)
    | some g =>
      match (room.completedSessions.filter (sessionMatchesCurrent g)).getLast? with
      | none => (m, none)
      | some s =>
        let room' := { room with
          completedSessions :=
            updateLastMatching (sessionMatchesCurrent g) f room.completedSessions
          lastActivityAt := now }
        ({ m with rooms := fun k => if k = roomId then some room' else m.rooms k },
         some (f s))

/-- `updateSessionPhoto(roomId, role, photoUrl)`. -/
def updateSessionPhoto (m : V3RoomManager) (roomId : String) (role : Role)
    (photoUrl : String) (now : ℕ) : V3RoomManager × Bool :=
  let r := mutateCurrentSession m roomId
    (fun s => match role with
      | Role.host => { s with hostPhotoUrl := some photoUrl }
      | Role.guest => { s with guestPhotoUrl := some photoUrl }) now
  (r.1, r.2.isSome)

/-- `isSessionReadyForMerge(roomId)`:
`!!(session.hostPhotoUrl && session.guestPhotoUrl)`. -/
def isSessionReadyForMerge (m : V3RoomManager) (roomId : String) : Bool :=
  match getCurrentSession m roomId with
  | none => false
  | some s => s.hostPhotoUrl.isSome && s.guestPhotoUrl.isSome

/-- `updateSessionMergedPhoto(roomId, mergedPhotoUrl)`. -/
def updateSessionMergedPhoto (m : V3RoomManager) (roomId mergedPhotoUrl : String)
    (now : ℕ) : V3RoomManager × Bool :=
  let r := mutateCurrentSession m roomId
    (fun s => { s with mergedPhotoUrl := some mergedPhotoUrl }) now
  (r.1, r.2.isSome)

/-- `completeSession(roomId, frameResultUrl)`. -/
def completeSession (m : V3RoomManager) (roomId frameResultUrl : String)
    (now : ℕ) : V3RoomManager × Option V3Session :=
  mutateCurrentSession m roomId
    (fun s => { s with frameResultUrl := some frameResultUrl
                       status := SessionStatus.completed
                       completedAt := some now }) now

/-- `leaveGuest(roomId, guestId)`: only the attached guest may leave; the
current `in_progress` session (if any) is marked completed, the guest slot
is cleared, and the room persists. -/
def leaveGuest (m : V3RoomManager) (roomId guestId : String) (now : ℕ) :
    V3RoomManager × Bool :=
  match m.rooms roomId with
  | none => (m, false)
  | some room =>
    if room.currentGuestId = some guestId then
      let sessions' :=
        match (room.completedSessions.filter (sessionMatchesCurrent guestId)).getLast? with
        | none => room.completedSessions
        | some s =>
          if s.status = SessionStatus.inProgress then
            updateLastMatching (sessionMatchesCurrent guestId)
              (fun t => { t with status := SessionStatus.completed
                                 completedAt := some now })
              room.completedSessions
          else room.completedSessions
      let room' := { room with completedSessions := sessions'
                               currentGuestId := none
                               lastActivityAt := now }
      ({ m with rooms := fun k => if k = roomId then some room' else m.rooms k }, true)
    else (m, false)

/-- `getCompletedSessions(roomId)`. -/
def getCompletedSessions (m : V3RoomManager) (roomId : String) : List V3Session :=
  match m.rooms roomId with
  | none => []
  | some room =>
    room.completedSessions.filter fun s => s.status == SessionStatus.completed

/-- `destroyRoom(roomId)`. -/
def destroyRoom (m : V3RoomManager) (roomId : String) : V3RoomManager × Bool :=
  match m.rooms roomId with
  | none => (m, false)
  | some _ =>
    ({ m with rooms := fun k => if k = roomId then none else m.rooms k }, true)

end V3

namespace V3

/-- Concrete manager state for the C2 counterexample: host and guest photos
uploaded and a merged photo already recorded on the current session. -/
def c2State : V3RoomManager :=
  let s0 : HostSettings :=
    { chromaKey := { enabled := true, color := "#00ff00",
                     similarity := 2/5, smoothness := 1/10 }
      selectedFrameLayoutId := "1cut-polaroid"
      recordingDuration := 10
      captureInterval := 3 }
  let m1 := (createRoom V3RoomManager.init "R" "h" s0 0).1
  let m2 := (joinGuest m1 "R" "g" 1).1
  let m3 := (updateSessionPhoto m2 "R" Role.host "h.png" 2).1
  let m4 := (updateSessionPhoto m3 "R" Role.guest "g.png" 3).1
  (updateSessionMergedPhoto m4 "R" "m.png" 4).1

end V3

theorem c2_counterexample :
    V3.isSessionReadyForMerge V3.c2State "R" = true ∧
    (V3.getCurrentSession V3.c2State "R").bind V3Session.mergedPhotoUrl =
      some "m.png" := by
  constructor <;> rfl

theorem c2_isSessionReadyForMerge (m : V3RoomManager) (rid : String) :
    (V3.getCurrentSession m rid = none → V3.isSessionReadyForMerge m rid = false) ∧
    (∀ s, V3.getCurrentSession m rid = some s →
      V3.isSessionReadyForMerge m rid =
        (s.hostPhotoUrl.isSome && s.guestPhotoUrl.isSome)) := by
  unfold V3.isSessionReadyForMerge
  constructor
  · intro h; rw [h]
  · intro s h; rw [h]

theorem c2_isSessionReadyForMerge_witness :
    V3.getCurrentSession V3RoomManager.init "R" = none ∧
    V3.isSessionReadyForMerge V3RoomManager.init "R" = false :=
  ⟨rfl, (c2_isSessionReadyForMerge V3RoomManager.init "R").1 rfl⟩

namespace V3

/-! ### Helper lemmas about `updateLastMatching` and session predicates -/

/-- `in_progress` as a Bool predicate on sessions. -/
def isInProgress (s : V3Session) : Bool := s.status == SessionStatus.inProgress

lemma sessionMatchesCurrent_iff (g : String) (s : V3Session) :
    sessionMatchesCurrent g s = true ↔
      s.guestId = g ∧ s.status = SessionStatus.inProgress := by
  simp [sessionMatchesCurrent]

lemma isInProgress_iff (s : V3Session) :
    isInProgress s = true ↔ s.status = SessionStatus.inProgress := by
  simp [isInProgress]

lemma matches_imp_inProgress (g : String) (s : V3Session)
    (h : sessionMatchesCurrent g s = true) : isInProgress s = true := by
  rw [sessionMatchesCurrent_iff] at h
  rw [isInProgress_iff]
  exact h.2

lemma mem_of_getLast?_eq {α : Type} {l : List α} {a : α}
    (h : l.getLast? = some a) : a ∈ l := by
  have hmem : a ∈ l.getLast? := by rw [h]; rfl
  rcases List.mem_getLast?_eq_getLast hmem with ⟨hne, heq⟩
  rw [heq]
  exact List.getLast_mem hne

lemma ulm_countP_congr {α : Type} (p q : α → Bool) (f : α → α)
    (hq : ∀ a, q (f a) = q a) (xs : List α) :
    (updateLastMatching p f xs).countP q = xs.countP q := by
  induction xs with
  | nil => rfl
  | cons x xs ih =>
    unfold updateLastMatching
    split
    · simp [List.countP_cons, ih]
    · split
      · simp [List.countP_cons, hq]
      · rfl

lemma ulm_mem {α : Type} (p : α → Bool) (f : α → α) (xs : List α) :
    ∀ z ∈ updateLastMatching p f xs, z ∈ xs ∨ ∃ y ∈ xs, p y = true ∧ z = f y := by
  induction xs with
  | nil => intro z hz; simp [updateLastMatching] at hz
  | cons x xs ih =>
    intro z hz
    unfold updateLastMatching at hz
    split at hz
    · rcases List.mem_cons.mp hz with h | h
      · left; simp [h]
      · rcases ih z h with h2 | ⟨y, hy, hpy, hzy⟩
        · left; simp [h2]
        · right; exact ⟨y, List.mem_cons_of_mem _ hy, hpy, hzy⟩
    · split at hz
      · rcases List.mem_cons.mp hz with h | h
        · right; exact ⟨x, List.mem_cons_self _ _, by assumption, h⟩
        · left; exact List.mem_cons_of_mem _ h
      · exact Or.inl hz

lemma ulm_countP_kill {α : Type} (p q : α → Bool) (f : α → α)
    (hpq : ∀ a, p a = true → q a = true) (hqf : ∀ a, q (f a) = false)
    (xs : List α) (hp : 0 < xs.countP p) :
    (updateLastMatching p f xs).countP q = xs.countP q - 1 := by
  induction xs with
  | nil => simp at hp
  | cons x xs ih =>
    unfold updateLastMatching
    split
    · rename_i hany
      have hpos : 0 < xs.countP p := by
        rw [List.countP_pos_iff]
        rcases List.any_eq_true.mp hany with ⟨y, hy, hpy⟩
        exact ⟨y, hy, hpy⟩
      have hqpos : 0 < xs.countP q := by
        calc 0 < xs.countP p := hpos
        _ ≤ xs.countP q := List.countP_mono_left (fun a _ ha => hpq a ha)
      simp only [List.countP_cons, ih hpos]
      omega
    · split
      · rename_i hpx
        have hqx : q x = true := hpq x hpx
        simp [List.countP_cons, hqf, hqx]
      · rename_i hany hpx
        exfalso
        have h0 : xs.countP p = 0 := by
          by_contra h
          rcases List.countP_pos_iff.mp (Nat.pos_of_ne_zero h) with ⟨y, hy, hpy⟩
          exact absurd (List.any_eq_true.mpr ⟨y, hy, hpy⟩) hany
        rw [List.countP_cons] at hp
        rw [Bool.not_eq_true] at hpx
        simp [hpx, h0] at hp

lemma ulm_decomp {α : Type} (p : α → Bool) (xs : List α) (s0 : α)
    (h : (xs.filter p).getLast? = some s0) :
    ∃ l1 l2, xs = l1 ++ s0 :: l2 ∧ (∀ a ∈ l2, p a = false) ∧ p s0 = true ∧
      ∀ f, updateLastMatching p f xs = l1 ++ f s0 :: l2 := by
  induction xs with
  | nil => simp at h
  | cons x xs ih =>
    by_cases hany : xs.any p = true
    · have hne : xs.filter p ≠ [] := by
        rw [ne_eq, List.filter_eq_nil_iff]
        rcases List.any_eq_true.mp hany with ⟨y, hy, hpy⟩
        intro hall
        exact hall y hy hpy
      have h' : (xs.filter p).getLast? = some s0 := by
        rw [List.filter_cons] at h
        split at h
        · rw [show (x :: xs.filter p) = [x] ++ xs.filter p from rfl,
              List.getLast?_append_of_ne_nil _ hne] at h
          exact h
        · exact h
      rcases ih h' with ⟨l1, l2, hxs, hl2, hps0, hulm⟩
      refine ⟨x :: l1, l2, by rw [hxs]; rfl, hl2, hps0, ?_⟩
      intro f
      unfold updateLastMatching
      rw [if_pos hany, hulm f]
      rfl
    · by_cases hpx : p x = true
      · have hfxs : xs.filter p = [] := by
          rw [List.filter_eq_nil_iff]
          intro a ha hpa
          exact hany (List.any_eq_true.mpr ⟨a, ha, hpa⟩)
        have hs0 : s0 = x := by
          rw [List.filter_cons, if_pos hpx, hfxs] at h
          simp at h
          exact h.symm
        subst hs0
        refine ⟨[], xs, rfl, ?_, hpx, ?_⟩
        · intro a ha
          rw [Bool.eq_false_iff]
          intro hpa
          exact hany (List.any_eq_true.mpr ⟨a, ha, hpa⟩)
        · intro f
          unfold updateLastMatching
          rw [if_neg (by simp [hany]), if_pos hpx]
          rfl
      · exfalso
        have hfxs : xs.filter p = [] := by
          rw [List.filter_eq_nil_iff]
          intro a ha hpa
          exact hany (List.any_eq_true.mpr ⟨a, ha, hpa⟩)
        rw [List.filter_cons, if_neg hpx, hfxs] at h
        simp at h

lemma ulm_map_congr {α β : Type} (p : α → Bool) (f : α → α) (g : α → β)
    (hg : ∀ a, g (f a) = g a) (xs : List α) :
    (updateLastMatching p f xs).map g = xs.map g := by
  induction xs with
  | nil => rfl
  | cons x xs ih =>
    unfold updateLastMatching
    split
    · simp [ih]
    · split
      · simp [hg]
      · rfl

end V3

/-- One `V3RoomManager` API call; traces of these characterize the states
reachable through the manager's public interface. -/
inductive V3Op where
  | createRoom (roomId hostId : String) (settings : HostSettings) (now : ℕ)
  | updateHostSettings (roomId : String) (patch : HostSettings → HostSettings) (now : ℕ)
  | joinGuest (roomId guestId : String) (now : ℕ)
  | leaveGuest (roomId guestId : String) (now : ℕ)
  | updateSessionPhoto (roomId : String) (role : Role) (url : String) (now : ℕ)
  | updateSessionMergedPhoto (roomId url : String) (now : ℕ)
  | completeSession (roomId url : String) (now : ℕ)
  | destroyRoom (roomId : String)

namespace V3

/-- Apply one API call to the manager state (dropping the return value). -/
def V3Op.apply (m : V3RoomManager) : V3Op → V3RoomManager
  | V3Op.createRoom rid h s now => (createRoom m rid h s now).1
  | V3Op.updateHostSettings rid p now => (updateHostSettings m rid p now).1
  | V3Op.joinGuest rid g now => (joinGuest m rid g now).1
  | V3Op.leaveGuest rid g now => (leaveGuest m rid g now).1
  | V3Op.updateSessionPhoto rid r u now => (updateSessionPhoto m rid r u now).1
  | V3Op.updateSessionMergedPhoto rid u now => (updateSessionMergedPhoto m rid u now).1
  | V3Op.completeSession rid u now => (completeSession m rid u now).1
  | V3Op.destroyRoom rid => (destroyRoom m rid).1

/-- Run a trace of API calls from the empty manager. -/
def run (ops : List V3Op) : V3RoomManager :=
  ops.foldl V3Op.apply V3RoomManager.init

/-- Per-room invariant: at most one `in_progress` session, and any
`in_progress` session belongs to the currently attached guest. -/
def roomInv (room : V3Room) : Prop :=
  room.completedSessions.countP isInProgress ≤ 1 ∧
  ∀ s ∈ room.completedSessions, s.status = SessionStatus.inProgress →
    room.currentGuestId = some s.guestId

/-- Manager invariant: every room satisfies `roomInv`. -/
def inv (m : V3RoomManager) : Prop :=
  ∀ rid room, m.rooms rid = some room → roomInv room

lemma inv_init : inv V3RoomManager.init := by
  intro rid room h
  simp [V3RoomManager.init] at h

lemma inv_update_room (m : V3RoomManager) (rid : String) (room2 : V3Room)
    (next : ℕ) (hinv : inv m) (hr : roomInv room2) :
    inv { rooms := fun k => if k = rid then some room2 else m.rooms k
          nextSessionId := next } := by
  intro rid2 room3 h2
  simp only at h2
  by_cases hk : rid2 = rid
  · rw [if_pos hk] at h2
    injection h2 with h3
    subst h3
    exact hr
  · rw [if_neg hk] at h2
    exact hinv _ _ h2

lemma inv_createRoom (m : V3RoomManager) (rid h : String) (s : HostSettings)
    (now : ℕ) (hinv : inv m) : inv (createRoom m rid h s now).1 := by
  simp only [createRoom]
  exact inv_update_room m rid _ _ hinv
    ⟨by simp, by intro s2 hs2; simp at hs2⟩

lemma inv_updateHostSettings (m : V3RoomManager) (rid : String)
    (patch : HostSettings → HostSettings) (now : ℕ) (hinv : inv m) :
    inv (updateHostSettings m rid patch now).1 := by
  cases hroom : m.rooms rid with
  | none => simp only [updateHostSettings, hroom]; exact hinv
  | some room =>
    simp only [updateHostSettings, hroom]
    rcases hinv rid room hroom with ⟨h4, h5⟩
    exact inv_update_room m rid _ _ hinv ⟨h4, h5⟩

lemma inv_joinGuest (m : V3RoomManager) (rid g : String) (now : ℕ)
    (hinv : inv m) : inv (joinGuest m rid g now).1 := by
  cases hroom : m.rooms rid with
  | none => simp only [joinGuest, hroom]; exact hinv
  | some room =>
    cases hguest : room.currentGuestId with
    | some g0 => simp only [joinGuest, hroom, hguest]; exact hinv
    | none =>
      simp only [joinGuest, hroom, hguest]
      rcases hinv rid room hroom with ⟨h4, h5⟩
      have hzero : room.completedSessions.countP isInProgress = 0 := by
        rw [List.countP_eq_zero]
        intro s hs hps
        rw [isInProgress_iff] at hps
        rw [h5 s hs hps] at hguest
        cases hguest
      apply inv_update_room m rid _ _ hinv
      constructor
      · dsimp only
        simp [List.countP_append, hzero, List.countP_cons, isInProgress]
      · dsimp only
        intro s hs hstat
        rcases List.mem_append.mp hs with hs1 | hs2
        · exfalso
          rw [h5 s hs1 hstat] at hguest
          cases hguest
        · simp at hs2
          subst hs2
          rfl

lemma inv_leaveGuest (m : V3RoomManager) (rid g : String) (now : ℕ)
    (hinv : inv m) : inv (leaveGuest m rid g now).1 := by
  cases hroom : m.rooms rid with
  | none => simp only [leaveGuest, hroom]; exact hinv
  | some room =>
    by_cases hguest : room.currentGuestId = some g
    · cases hlast : (room.completedSessions.filter (sessionMatchesCurrent g)).getLast? with
      | none =>
        simp only [leaveGuest, hroom, if_pos hguest, hlast]
        have hfe : room.completedSessions.filter (sessionMatchesCurrent g) = [] :=
          List.getLast?_eq_none_iff.mp hlast
        have hnone : ∀ s ∈ room.completedSessions,
            s.status = SessionStatus.inProgress → False := by
          intro s hs hstat
          rcases hinv rid room hroom with ⟨_, h5⟩
          have hgid : room.currentGuestId = some s.guestId := h5 s hs hstat
          rw [hguest] at hgid
          injection hgid with hgid2
          have hps : sessionMatchesCurrent g s = true := by
            rw [sessionMatchesCurrent_iff]
            exact ⟨hgid2.symm, hstat⟩
          exact (List.filter_eq_nil_iff.mp hfe s hs) hps
        apply inv_update_room m rid _ _ hinv
        refine ⟨(hinv rid room hroom).1, ?_⟩
        dsimp only
        intro s hs hstat
        exact absurd hstat (fun hc => hnone s hs hc)
      | some s0 =>
        have hmemf := List.mem_filter.mp (mem_of_getLast?_eq hlast)
        have hps0 : sessionMatchesCurrent g s0 = true := hmemf.2
        have hstat0 : s0.status = SessionStatus.inProgress :=
          ((sessionMatchesCurrent_iff g s0).mp hps0).2
        simp only [leaveGuest, hroom, if_pos hguest, hlast, if_pos hstat0]
        have hcp : 0 < room.completedSessions.countP (sessionMatchesCurrent g) := by
          rw [List.countP_pos_iff]
          exact ⟨s0, hmemf.1, hps0⟩
        have hkill := ulm_countP_kill (sessionMatchesCurrent g) isInProgress
          (fun t => { t with status := SessionStatus.completed, completedAt := some now })
          (matches_imp_inProgress g)
          (by intro a; simp [isInProgress])
          room.completedSessions hcp
        have hle : room.completedSessions.countP isInProgress ≤ 1 :=
          (hinv rid room hroom).1
        apply inv_update_room m rid _ _ hinv
        constructor
        · dsimp only
          rw [hkill]; omega
        · dsimp only
          intro s hs hstat
          exfalso
          have hzero : (updateLastMatching (sessionMatchesCurrent g)
              (fun t => { t with status := SessionStatus.completed,
                                 completedAt := some now })
              room.completedSessions).countP isInProgress = 0 := by
            have hqpos : 0 < room.completedSessions.countP isInProgress := by
              rw [List.countP_pos_iff]
              refine ⟨s0, hmemf.1, ?_⟩
              rw [isInProgress_iff]
              exact hstat0
            omega
          rw [List.countP_eq_zero] at hzero
          have := hzero s hs
          rw [isInProgress_iff] at this
          exact this hstat
    · simp only [leaveGuest, hroom, if_neg hguest]
      exact hinv

lemma inv_mutate_preserve (m : V3RoomManager) (rid : String)
    (f : V3Session → V3Session) (now : ℕ)
    (hfg : ∀ s, (f s).guestId = s.guestId)
    (hfs : ∀ s, (f s).status = s.status)
    (hinv : inv m) : inv (mutateCurrentSession m rid f now).1 := by
  cases hroom : m.rooms rid with
  | none => simp only [mutateCurrentSession, hroom]; exact hinv
  | some room =>
    cases hguest : room.currentGuestId with
    | none => simp only [mutateCurrentSession, hroom, hguest]; exact hinv
    | some g =>
      cases hlast : (room.completedSessions.filter (sessionMatchesCurrent g)).getLast? with
      | none => simp only [mutateCurrentSession, hroom, hguest, hlast]; exact hinv
      | some s0 =>
        simp only [mutateCurrentSession, hroom, hguest, hlast]
        rcases hinv rid room hroom with ⟨h4, h5⟩
        apply inv_update_room m rid _ _ hinv
        constructor
        · dsimp only
          rw [ulm_countP_congr _ _ _ (by intro a; simp [isInProgress, hfs])]
          exact h4
        · dsimp only
          intro s hs hstat
          rcases ulm_mem _ _ _ s hs with hold | ⟨y, hy, hpy, hfy⟩
          · have h6 := h5 s hold hstat
            rw [hguest] at h6
            exact h6
          · subst hfy
            rw [hfg]
            have h6 := h5 y hy (by rw [← hfs]; exact hstat)
            rw [hguest] at h6
            exact h6

lemma inv_completeSession (m : V3RoomManager) (rid url : String) (now : ℕ)
    (hinv : inv m) : inv (completeSession m rid url now).1 := by
  cases hroom : m.rooms rid with
  | none => simp only [completeSession, mutateCurrentSession, hroom]; exact hinv
  | some room =>
    cases hguest : room.currentGuestId with
    | none =>
      simp only [completeSession, mutateCurrentSession, hroom, hguest]; exact hinv
    | some g =>
      cases hlast : (room.completedSessions.filter (sessionMatchesCurrent g)).getLast? with
      | none =>
        simp only [completeSession, mutateCurrentSession, hroom, hguest, hlast]
        exact hinv
      | some s0 =>
        simp only [completeSession, mutateCurrentSession, hroom, hguest, hlast]
        have hmemf := List.mem_filter.mp (mem_of_getLast?_eq hlast)
        have hcp : 0 < room.completedSessions.countP (sessionMatchesCurrent g) := by
          rw [List.countP_pos_iff]
          exact ⟨s0, hmemf.1, hmemf.2⟩
        rcases hinv rid room hroom with ⟨h4, h5⟩
        apply inv_update_room m rid _ _ hinv
        constructor
        · dsimp only
          rw [ulm_countP_kill _ _ _ (matches_imp_inProgress g)
              (by intro a; simp [isInProgress]) _ hcp]
          omega
        · dsimp only
          intro s hs hstat
          rcases ulm_mem _ _ _ s hs with hold | ⟨y, hy, hpy, hfy⟩
          · have h6 := h5 s hold hstat
            rw [hguest] at h6
            exact h6
          · exfalso
            subst hfy
            simp at hstat

lemma inv_destroyRoom (m : V3RoomManager) (rid : String) (hinv : inv m) :
    inv (destroyRoom m rid).1 := by
  cases hroom : m.rooms rid with
  | none => simp only [destroyRoom, hroom]; exact hinv
  | some room =>
    simp only [destroyRoom, hroom]
    intro rid2 room2 h2
    simp only at h2
    by_cases hk : rid2 = rid
    · rw [if_pos hk] at h2
      cases h2
    · rw [if_neg hk] at h2
      exact hinv _ _ h2

lemma inv_apply (m : V3RoomManager) (op : V3Op) (hinv : inv m) :
    inv (V3Op.apply m op) := by
  cases op with
  | createRoom rid h s now => exact inv_createRoom m rid h s now hinv
  | updateHostSettings rid p now => exact inv_updateHostSettings m rid p now hinv
  | joinGuest rid g now => exact inv_joinGuest m rid g now hinv
  | leaveGuest rid g now => exact inv_leaveGuest m rid g now hinv
  | updateSessionPhoto rid r u now =>
    exact inv_mutate_preserve m rid _ now (by intro s; cases r <;> rfl)
      (by intro s; cases r <;> rfl) hinv
  | updateSessionMergedPhoto rid u now =>
    exact inv_mutate_preserve m rid _ now (fun s => rfl) (fun s => rfl) hinv
  | completeSession rid u now => exact inv_completeSession m rid u now hinv
  | destroyRoom rid => exact inv_destroyRoom m rid hinv

lemma inv_run (ops : List V3Op) : inv (run ops) := by
  suffices h : ∀ m, inv m → inv (ops.foldl V3Op.apply m) by
    exact h V3RoomManager.init inv_init
  induction ops with
  | nil => intro m hm; exact hm
  | cons op ops ih =>
    intro m hm
    exact ih _ (inv_apply m op hm)

end V3

namespace V3

/-- The session mutation performed by `completeSession`. -/
def completeFn (url : String) (now : ℕ) (t : V3Session) : V3Session :=
  { t with frameResultUrl := some url
           status := SessionStatus.completed
           completedAt := some now }

/-- The room produced by a successful `completeSession`. -/
def completedRoom (room : V3Room) (g url : String) (now : ℕ) : V3Room :=
  { room with
    completedSessions :=
      updateLastMatching (sessionMatchesCurrent g) (completeFn url now)
        room.completedSessions
    lastActivityAt := now }

/-- Point update of the manager's room map. -/
def setRoom (m : V3RoomManager) (rid : String) (room : V3Room) : V3RoomManager :=
  { m with rooms := fun k => if k = rid then some room else m.rooms k }

lemma setRoom_rooms_self (m : V3RoomManager) (rid : String) (room : V3Room) :
    (setRoom m rid room).rooms rid = some room := by
  simp [setRoom]

lemma completedRoom_guest (room : V3Room) (g url : String) (now : ℕ) :
    (completedRoom room g url now).currentGuestId = room.currentGuestId := rfl

lemma completedRoom_sessions (room : V3Room) (g url : String) (now : ℕ) :
    (completedRoom room g url now).completedSessions =
      updateLastMatching (sessionMatchesCurrent g) (completeFn url now)
        room.completedSessions := rfl

/-- Decomposition of a successful `completeSession` call. -/
lemma completeSession_success_shape (m : V3RoomManager) (rid url : String)
    (now : ℕ) (m2 : V3RoomManager) (s : V3Session)
    (h : completeSession m rid url now = (m2, some s)) :
    ∃ room g s0, m.rooms rid = some room ∧ room.currentGuestId = some g ∧
      (room.completedSessions.filter (sessionMatchesCurrent g)).getLast? = some s0 ∧
      s = completeFn url now s0 ∧
      m2 = setRoom m rid (completedRoom room g url now) := by
  cases hroom : m.rooms rid with
  | none =>
    simp only [completeSession, mutateCurrentSession, hroom] at h
    injection h with h1 h2
    cases h2
  | some room =>
    cases hguest : room.currentGuestId with
    | none =>
      simp only [completeSession, mutateCurrentSession, hroom, hguest] at h
      injection h with h1 h2
      cases h2
    | some g =>
      cases hlast : (room.completedSessions.filter (sessionMatchesCurrent g)).getLast? with
      | none =>
        simp only [completeSession, mutateCurrentSession, hroom, hguest, hlast] at h
        injection h with h1 h2
        cases h2
      | some s0 =>
        simp only [completeSession, mutateCurrentSession, hroom, hguest, hlast] at h
        injection h with h1 h2
        injection h2 with h3
        have hm : m2 = setRoom m rid (completedRoom room g url now) := by
          unfold setRoom completedRoom completeFn
          rw [hguest]
          exact h1.symm
        exact ⟨room, g, s0, rfl, hguest, hlast, h3.symm, hm⟩

end V3

/-- C10: in rotating-guest mode, once `completeSession` has completed the
current session, every session-mutating operation fails and
`isSessionReadyForMerge` is false for that room — even though the guest is
still attached — because the current-session lookup only returns an
`in_progress` session of the attached guest; `joinGuest` also fails while
the guest remains attached, and after a guest departure the current-session
lookup likewise returns nothing (so a new session exists only after a
subsequent `joinGuest`). -/
theorem c10_completed_session_blocks_mutation
    (ops : List V3Op) (rid url : String) (now : ℕ)
    (m2 : V3RoomManager) (s : V3Session)
    (h : V3.completeSession (V3.run ops) rid url now = (m2, some s)) :
    V3.getCurrentSession m2 rid = none ∧
    V3.isSessionReadyForMerge m2 rid = false ∧
    (∀ role url2 now2, (V3.updateSessionPhoto m2 rid role url2 now2).2 = false) ∧
    (∀ url2 now2, (V3.updateSessionMergedPhoto m2 rid url2 now2).2 = false) ∧
    (∀ url2 now2, (V3.completeSession m2 rid url2 now2).2 = none) ∧
    (V3.getRoom m2 rid).map V3Room.currentGuestId = some (some s.guestId) ∧
    (∀ g2 now2, (V3.joinGuest m2 rid g2 now2).2 = none) ∧
    (∀ g2 now2 m3, V3.leaveGuest (V3.run ops) rid g2 now2 = (m3, true) →
      V3.getCurrentSession m3 rid = none) := by
  have hinv := V3.inv_run ops
  rcases V3.completeSession_success_shape _ _ _ _ _ _ h with
    ⟨room, g, s0, hroom, hguest, hlast, hs, hm2⟩
  have hmemf := List.mem_filter.mp (V3.mem_of_getLast?_eq hlast)
  have hcp : 0 < room.completedSessions.countP (V3.sessionMatchesCurrent g) := by
    rw [List.countP_pos_iff]
    exact ⟨s0, hmemf.1, hmemf.2⟩
  have hzero : (V3.updateLastMatching (V3.sessionMatchesCurrent g)
      (V3.completeFn url now) room.completedSessions).countP
        (V3.sessionMatchesCurrent g) = 0 := by
    rw [V3.ulm_countP_kill _ _ _ (fun a ha => ha)
        (by intro a; simp [V3.sessionMatchesCurrent, V3.completeFn]) _ hcp]
    have hle : room.completedSessions.countP (V3.sessionMatchesCurrent g) ≤ 1 := by
      calc room.completedSessions.countP (V3.sessionMatchesCurrent g)
          ≤ room.completedSessions.countP V3.isInProgress :=
            List.countP_mono_left (fun a _ ha => V3.matches_imp_inProgress g a ha)
        _ ≤ 1 := (hinv rid room hroom).1
    omega
  have hfe : (V3.updateLastMatching (V3.sessionMatchesCurrent g)
      (V3.completeFn url now) room.completedSessions).filter
        (V3.sessionMatchesCurrent g) = [] := by
    rw [List.filter_eq_nil_iff]
    rw [List.countP_eq_zero] at hzero
    exact hzero
  subst hm2
  have hcur : V3.getCurrentSession
      (V3.setRoom (V3.run ops) rid (V3.completedRoom room g url now)) rid = none := by
    simp only [V3.getCurrentSession, V3.setRoom_rooms_self, V3.completedRoom_guest,
      hguest, V3.completedRoom_sessions, hfe]
    rfl
  refine ⟨hcur, ?_, ?_, ?_, ?_, ?_, ?_, ?_⟩
  · simp only [V3.isSessionReadyForMerge, hcur]
  · intro role url2 now2
    simp only [V3.updateSessionPhoto, V3.mutateCurrentSession, V3.setRoom_rooms_self,
      V3.completedRoom_guest, hguest, V3.completedRoom_sessions, hfe]
    rfl
  · intro url2 now2
    simp only [V3.updateSessionMergedPhoto, V3.mutateCurrentSession,
      V3.setRoom_rooms_self, V3.completedRoom_guest, hguest,
      V3.completedRoom_sessions, hfe]
    rfl
  · intro url2 now2
    simp only [V3.completeSession, V3.mutateCurrentSession, V3.setRoom_rooms_self,
      V3.completedRoom_guest, hguest, V3.completedRoom_sessions, hfe]
    rfl
  · have hgid : s0.guestId = g := ((V3.sessionMatchesCurrent_iff g s0).mp hmemf.2).1
    subst hs
    simp only [V3.getRoom, V3.setRoom_rooms_self]
    simp [V3.completedRoom_guest, hguest, V3.completeFn, hgid]
  · intro g2 now2
    simp only [V3.joinGuest, V3.setRoom_rooms_self, V3.completedRoom_guest, hguest]
  · intro g2 now2 m3 h3
    cases hroom2 : (V3.run ops).rooms rid with
    | none => rw [hroom2] at hroom; cases hroom
    | some room2 =>
      rw [hroom2] at hroom
      injection hroom with hroomeq
      subst hroomeq
      by_cases hg2 : room2.currentGuestId = some g2
      · simp only [V3.leaveGuest, hroom2, if_pos hg2] at h3
        injection h3 with h31 h32
        subst h31
        simp [V3.getCurrentSession]
      · simp only [V3.leaveGuest, hroom2, if_neg hg2] at h3
        injection h3 with h31 h32
        cases h32

/-- Default host settings used by the V3 signaling server when creating a
room. -/
def defaultHostSettings : HostSettings :=
  { chromaKey := { enabled := true, color := "#00ff00",
                   similarity := 2/5, smoothness := 1/10 }
    selectedFrameLayoutId := "1cut-polaroid"
    recordingDuration := 10
    captureInterval := 3 }

/-- Witness for `c10_completed_session_blocks_mutation` on a concrete
two-step trace. -/
theorem c10_completed_session_blocks_mutation_witness :
    ∃ m2 s, V3.completeSession
        (V3.run [V3Op.createRoom "R" "h" defaultHostSettings 0,
                 V3Op.joinGuest "R" "g" 1]) "R" "f.png" 2 = (m2, some s) ∧
      V3.getCurrentSession m2 "R" = none ∧
      V3.isSessionReadyForMerge m2 "R" = false ∧
      (V3.updateSessionPhoto m2 "R" Role.host "x.png" 3).2 = false := by
  refine ⟨_, _, rfl, ?_⟩
  obtain ⟨h1, h2, h3, _⟩ := c10_completed_session_blocks_mutation
    [V3Op.createRoom "R" "h" defaultHostSettings 0, V3Op.joinGuest "R" "g" 1]
    "R" "f.png" 2 _ _ rfl
  exact ⟨h1, h2, h3 Role.host "x.png" 3⟩

/-! ## Photo-v3 upload route: race-safe merge dispatch (C1)

Embeds the `/upload` handler of `createPhotoV3Router` and the
`mergePhotos` helper, together with the `mergeInProgress` set.  The
`setImmediate` merge callback becomes an explicit `runMerge` event: the
upload handler that dispatches a merge records the room id in
`pendingMerges`, and a later `runMerge` event executes the callback to
completion (`mergePhotos`, then the completion broadcast and
`completeSession`, then the `finally` block clearing the marker).  The
collaborator image merge is assumed to succeed; `mergeExecLog` records the
`sessionId` of every session for which the actual `mergeImages` call was
made. -/

structure PhotoV3State where
  mgr : V3RoomManager
  mergeInProgress : List String
  pendingMerges : List String
  mergeExecLog : List ℕ

/-- Initial route state: no rooms, no markers, no merges executed. -/
def PhotoV3State.init : PhotoV3State :=
  { mgr := V3RoomManager.init
    mergeInProgress := []
    pendingMerges := []
    mergeExecLog := [] }

/-- The `/upload` handler: validate room and role, record the photo via
`updateSessionPhoto` (result ignored, as in the source), then — iff the
session is ready and no merge is in flight for this room — set the marker
and dispatch the merge callback, both in the same handler step. -/
def uploadStep (st : PhotoV3State) (rid uid : String) (role : Role)
    (url : String) (now : ℕ) : PhotoV3State :=
  match V3.getRoom st.mgr rid with
  | none => st
  | some room =>
    if role = Role.host ∧ room.hostId ≠ uid then st
    else if role = Role.guest ∧ room.currentGuestId ≠ some uid then st
    else
      let mgr1 := (V3.updateSessionPhoto st.mgr rid role url now).1
      if V3.isSessionReadyForMerge mgr1 rid ∧ rid ∉ st.mergeInProgress then
        { st with mgr := mgr1
                  mergeInProgress := rid :: st.mergeInProgress
                  pendingMerges := rid :: st.pendingMerges }
      else { st with mgr := mgr1 }

/-- One dispatched merge callback running to completion: `mergePhotos`
(early return when the session is gone, photos missing, or a merged url
already present; otherwise the actual image merge executes and the merged
url is recorded), then `completeSession`, then the `finally` block clears
the in-flight marker and consumes the pending callback. -/
def runMergeStep (st : PhotoV3State) (rid mergedUrl : String) (now : ℕ) :
    PhotoV3State :=
  if rid ∈ st.pendingMerges then
    let st1 :=
      match V3.getCurrentSession st.mgr rid with
      | none => st
      | some s =>
        if s.hostPhotoUrl.isNone ∨ s.guestPhotoUrl.isNone then st
        else
          match s.mergedPhotoUrl with
          | some u =>
            { st with mgr := (V3.completeSession st.mgr rid u now).1 }
          | none =>
            let mgrA := (V3.updateSessionMergedPhoto st.mgr rid mergedUrl now).1
            let mgrB := (V3.completeSession mgrA rid mergedUrl now).1
            { st with mgr := mgrB
                      mergeExecLog := s.sessionId :: st.mergeExecLog }
    { st1 with mergeInProgress := st1.mergeInProgress.filter (fun r => r ≠ rid)
               pendingMerges := st1.pendingMerges.erase rid }
  else st

/-- Events of the photo-v3 flow: room lifecycle (driven by the signaling
server), photo uploads, and the asynchronous merge callbacks. -/
inductive PhotoV3Event where
  | createRoom (rid hostId : String) (settings : HostSettings) (now : ℕ)
  | joinGuest (rid g : String) (now : ℕ)
  | leaveGuest (rid g : String) (now : ℕ)
  | destroyRoom (rid : String)
  | upload (rid uid : String) (role : Role) (url : String) (now : ℕ)
  | runMerge (rid mergedUrl : String) (now : ℕ)

/-- Apply one event. -/
def PhotoV3Event.apply (st : PhotoV3State) : PhotoV3Event → PhotoV3State
  | PhotoV3Event.createRoom rid h s now =>
    { st with mgr := (V3.createRoom st.mgr rid h s now).1 }
  | PhotoV3Event.joinGuest rid g now =>
    { st with mgr := (V3.joinGuest st.mgr rid g now).1 }
  | PhotoV3Event.leaveGuest rid g now =>
    { st with mgr := (V3.leaveGuest st.mgr rid g now).1 }
  | PhotoV3Event.destroyRoom rid =>
    { st with mgr := (V3.destroyRoom st.mgr rid).1 }
  | PhotoV3Event.upload rid uid role url now => uploadStep st rid uid role url now
  | PhotoV3Event.runMerge rid mergedUrl now => runMergeStep st rid mergedUrl now

/-- Run a trace of events from the initial state. -/
def runPhotoV3 (evs : List PhotoV3Event) : PhotoV3State :=
  evs.foldl PhotoV3Event.apply PhotoV3State.init

namespace V3

lemma ulm_of_decomp {α : Type} (p : α → Bool) (f : α → α) (l1 l2 : List α)
    (s : α) (hs : p s = true) (hl2 : ∀ a ∈ l2, p a = false) :
    updateLastMatching p f (l1 ++ s :: l2) = l1 ++ f s :: l2 := by
  induction l1 with
  | nil =>
    unfold updateLastMatching
    have hany : l2.any p = false := by
      rw [Bool.eq_false_iff]
      intro h
      rcases List.any_eq_true.mp h with ⟨a, ha, hpa⟩
      rw [hl2 a ha] at hpa
      cases hpa
    simp [hany, hs]
  | cons x l1 ih =>
    unfold updateLastMatching
    have hany : (l1 ++ s :: l2).any p = true :=
      List.any_eq_true.mpr ⟨s, by simp, hs⟩
    simp only [List.cons_append, hany, if_pos]
    rw [ih]

lemma getLast?_filter_decomp {α : Type} (p : α → Bool) (l1 l2 : List α)
    (s : α) (hs : p s = true) (hl2 : ∀ a ∈ l2, p a = false) :
    ((l1 ++ s :: l2).filter p).getLast? = some s := by
  have hfl2 : l2.filter p = [] := by
    rw [List.filter_eq_nil_iff]
    intro a ha
    rw [hl2 a ha]
    simp
  rw [List.filter_append, List.filter_cons, if_pos hs, List.getLast?_append_cons,
    hfl2]
  rfl

end V3

namespace V3

/-- Id bookkeeping invariant of the manager: every session id is below the
fresh counter, ids are unique within a room, and disjoint across rooms. -/
def mgrIdsInv (m : V3RoomManager) : Prop :=
  (∀ rid room, m.rooms rid = some room →
     (∀ s ∈ room.completedSessions, s.sessionId < m.nextSessionId) ∧
     (room.completedSessions.map V3Session.sessionId).Nodup) ∧
  (∀ rid rid2 room room2, rid ≠ rid2 → m.rooms rid = some room →
     m.rooms rid2 = some room2 → ∀ s ∈ room.completedSessions,
     ∀ s2 ∈ room2.completedSessions, s.sessionId ≠ s2.sessionId)

/-- Relation between the merge-execution log and the manager: logged ids
are distinct and fresh-bounded, and every session carrying a logged id
already holds a merged photo url. -/
def logMergedInv (m : V3RoomManager) (log : List ℕ) : Prop :=
  log.Nodup ∧ (∀ sid ∈ log, sid < m.nextSessionId) ∧
  (∀ sid ∈ log, ∀ rid room, m.rooms rid = some room →
     ∀ s ∈ room.completedSessions, s.sessionId = sid →
       s.mergedPhotoUrl.isSome = true)

/-- Full invariant of the photo-v3 route state. -/
def c1Inv (st : PhotoV3State) : Prop :=
  mgrIdsInv st.mgr ∧ logMergedInv st.mgr st.mergeExecLog

lemma setRoom_lookup (m : V3RoomManager) (rid k : String) (room : V3Room) :
    (setRoom m rid room).rooms k = if k = rid then some room else m.rooms k := rfl

lemma setRoom_next (m : V3RoomManager) (rid : String) (room : V3Room) :
    (setRoom m rid room).nextSessionId = m.nextSessionId := rfl

lemma inv_transfer_setRoom (m : V3RoomManager) (rid : String)
    (room room2 : V3Room) (log : List ℕ)
    (hroom : m.rooms rid = some room)
    (hids : room2.completedSessions.map V3Session.sessionId =
      room.completedSessions.map V3Session.sessionId)
    (href : ∀ t ∈ room2.completedSessions, ∃ s ∈ room.completedSessions,
      t.sessionId = s.sessionId ∧
      (s.mergedPhotoUrl.isSome = true → t.mergedPhotoUrl.isSome = true))
    (h1 : mgrIdsInv m) (h2 : logMergedInv m log) :
    mgrIdsInv (setRoom m rid room2) ∧ logMergedInv (setRoom m rid room2) log := by
  obtain ⟨h1a, h1b⟩ := h1
  obtain ⟨h2a, h2b, h2c⟩ := h2
  refine ⟨⟨?_, ?_⟩, h2a, ?_, ?_⟩
  · intro k rk hk
    rw [setRoom_lookup] at hk
    by_cases hkr : k = rid
    · rw [if_pos hkr] at hk
      injection hk with hk2
      subst hk2
      constructor
      · intro s hs
        rcases href s hs with ⟨s0, hs0, hid, _⟩
        rw [setRoom_next, hid]
        exact (h1a rid room hroom).1 s0 hs0
      · rw [hids]
        exact (h1a rid room hroom).2
    · rw [if_neg hkr] at hk
      exact ⟨fun s hs => (h1a k rk hk).1 s hs, (h1a k rk hk).2⟩
  · intro k k2 rk rk2 hne hk hk2
    rw [setRoom_lookup] at hk hk2
    intro s hs s2 hs2
    by_cases hkr : k = rid <;> by_cases hk2r : k2 = rid
    · exact absurd (hkr.trans hk2r.symm) hne
    · rw [if_pos hkr] at hk
      rw [if_neg hk2r] at hk2
      injection hk with he
      subst he
      rcases href s hs with ⟨s0, hs0, hid, _⟩
      rw [hid]
      refine h1b rid k2 room rk2 ?_ hroom hk2 s0 hs0 s2 hs2
      rw [← hkr]
      exact hne
    · rw [if_neg hkr] at hk
      rw [if_pos hk2r] at hk2
      injection hk2 with he
      subst he
      rcases href s2 hs2 with ⟨s0, hs0, hid, _⟩
      rw [hid]
      refine h1b k rid rk room ?_ hk hroom s hs s0 hs0
      rw [← hk2r]
      exact hne
    · rw [if_neg hkr] at hk
      rw [if_neg hk2r] at hk2
      exact h1b k k2 rk rk2 hne hk hk2 s hs s2 hs2
  · intro sid hsid
    rw [setRoom_next]
    exact h2b sid hsid
  · intro sid hsid k rk hk s hs hsSid
    rw [setRoom_lookup] at hk
    by_cases hkr : k = rid
    · rw [if_pos hkr] at hk
      injection hk with hk2
      subst hk2
      rcases href s hs with ⟨s0, hs0, hid, hmg⟩
      apply hmg
      refine h2c sid hsid rid room hroom s0 hs0 ?_
      rw [← hid]
      exact hsSid
    · rw [if_neg hkr] at hk
      exact h2c sid hsid k rk hk s hs hsSid

lemma inv_mutate_ids (m : V3RoomManager) (rid : String)
    (f : V3Session → V3Session) (now : ℕ) (log : List ℕ)
    (hid : ∀ s, (f s).sessionId = s.sessionId)
    (hmg : ∀ s, s.mergedPhotoUrl.isSome = true →
      (f s).mergedPhotoUrl.isSome = true)
    (h1 : mgrIdsInv m) (h2 : logMergedInv m log) :
    mgrIdsInv (mutateCurrentSession m rid f now).1 ∧
      logMergedInv (mutateCurrentSession m rid f now).1 log := by
  cases hroom : m.rooms rid with
  | none =>
    simp only [mutateCurrentSession, hroom]
    exact ⟨h1, h2⟩
  | some room =>
    cases hguest : room.currentGuestId with
    | none =>
      simp only [mutateCurrentSession, hroom, hguest]
      exact ⟨h1, h2⟩
    | some g =>
      cases hlast : (room.completedSessions.filter (sessionMatchesCurrent g)).getLast? with
      | none =>
        simp only [mutateCurrentSession, hroom, hguest, hlast]
        exact ⟨h1, h2⟩
      | some s0 =>
        have heq : (mutateCurrentSession m rid f now).1 =
            setRoom m rid
              { room with
                completedSessions :=
                  updateLastMatching (sessionMatchesCurrent g) f
                    room.completedSessions
                lastActivityAt := now } := by
          simp only [mutateCurrentSession, hroom, hguest, hlast]
          rfl
        rw [heq]
        apply inv_transfer_setRoom m rid room _ log hroom ?_ ?_ h1 h2
        · exact ulm_map_congr _ _ _ hid _
        · intro t ht
          rcases ulm_mem _ _ _ t ht with hold | ⟨y, hy, hpy, hty⟩
          · exact ⟨t, hold, rfl, fun h => h⟩
          · subst hty
            exact ⟨y, hy, hid y, hmg y⟩

end V3

namespace V3

lemma c1Inv_init : c1Inv PhotoV3State.init := by
  constructor
  · constructor
    · intro rid room h
      simp [PhotoV3State.init, V3RoomManager.init] at h
    · intro k k2 rk rk2 hne hk hk2
      simp [PhotoV3State.init, V3RoomManager.init] at hk
  · refine ⟨List.nodup_nil, ?_, ?_⟩
    · intro sid hsid
      simp [PhotoV3State.init] at hsid
    · intro sid hsid
      simp [PhotoV3State.init] at hsid

lemma c1_createRoom_preserve (st : PhotoV3State) (rid h0 : String)
    (s : HostSettings) (now : ℕ) (h : c1Inv st) :
    c1Inv { st with mgr := (createRoom st.mgr rid h0 s now).1 } := by
  obtain ⟨⟨h1a, h1b⟩, h2a, h2b, h2c⟩ := h
  refine ⟨⟨?_, ?_⟩, h2a, ?_, ?_⟩
  · intro k rk hk
    simp only [createRoom] at hk
    by_cases hkr : k = rid
    · rw [if_pos hkr] at hk
      injection hk with he
      subst he
      exact ⟨by intro s2 hs2; simp at hs2, by simp⟩
    · rw [if_neg hkr] at hk
      exact h1a k rk hk
  · intro k k2 rk rk2 hne hk hk2
    simp only [createRoom] at hk hk2
    intro s2 hs2 s3 hs3
    by_cases hkr : k = rid <;> by_cases hk2r : k2 = rid
    · exact absurd (hkr.trans hk2r.symm) hne
    · rw [if_pos hkr] at hk
      injection hk with he
      subst he
      simp at hs2
    · rw [if_pos hk2r] at hk2
      injection hk2 with he
      subst he
      simp at hs3
    · rw [if_neg hkr] at hk
      rw [if_neg hk2r] at hk2
      exact h1b k k2 rk rk2 hne hk hk2 s2 hs2 s3 hs3
  · intro sid hsid
    exact h2b sid hsid
  · intro sid hsid k rk hk s2 hs2 hsid2
    simp only [createRoom] at hk
    by_cases hkr : k = rid
    · rw [if_pos hkr] at hk
      injection hk with he
      subst he
      simp at hs2
    · rw [if_neg hkr] at hk
      exact h2c sid hsid k rk hk s2 hs2 hsid2

lemma c1_joinGuest_preserve (st : PhotoV3State) (rid g : String) (now : ℕ)
    (h : c1Inv st) :
    c1Inv { st with mgr := (joinGuest st.mgr rid g now).1 } := by
  obtain ⟨⟨h1a, h1b⟩, h2a, h2b, h2c⟩ := h
  cases hroom : st.mgr.rooms rid with
  | none =>
    simp only [joinGuest, hroom]
    exact ⟨⟨h1a, h1b⟩, h2a, h2b, h2c⟩
  | some room =>
    cases hguest : room.currentGuestId with
    | some g0 =>
      simp only [joinGuest, hroom, hguest]
      exact ⟨⟨h1a, h1b⟩, h2a, h2b, h2c⟩
    | none =>
      simp only [joinGuest, hroom, hguest]
      refine ⟨⟨?_, ?_⟩, h2a, ?_, ?_⟩
      · intro k rk hk
        simp only at hk
        by_cases hkr : k = rid
        · rw [if_pos hkr] at hk
          injection hk with he
          subst he
          constructor
          · intro s2 hs2
            simp only at hs2 ⊢
            rcases List.mem_append.mp hs2 with h3 | h3
            · have := (h1a rid room hroom).1 s2 h3
              omega
            · simp at h3
              subst h3
              simp
          · simp only [List.map_append]
            refine List.Nodup.append (h1a rid room hroom).2 (by simp) ?_
            intro a ha hb
            simp at hb
            subst hb
            rcases List.mem_map.mp ha with ⟨s2, hs2, hid2⟩
            have := (h1a rid room hroom).1 s2 hs2
            omega
        · rw [if_neg hkr] at hk
          refine ⟨?_, (h1a k rk hk).2⟩
          intro s2 hs2
          have := (h1a k rk hk).1 s2 hs2
          simp only
          omega
      · intro k k2 rk rk2 hne hk hk2
        simp only at hk hk2
        intro s2 hs2 s3 hs3
        by_cases hkr : k = rid <;> by_cases hk2r : k2 = rid
        · exact absurd (hkr.trans hk2r.symm) hne
        · rw [if_pos hkr] at hk
          rw [if_neg hk2r] at hk2
          injection hk with he
          subst he
          rcases List.mem_append.mp hs2 with h3 | h3
          · exact h1b rid k2 room rk2 (by rw [← hkr]; exact hne) hroom hk2 s2 h3 s3 hs3
          · simp at h3
            subst h3
            have := (h1a k2 rk2 hk2).1 s3 hs3
            simp only
            omega
        · rw [if_neg hkr] at hk
          rw [if_pos hk2r] at hk2
          injection hk2 with he
          subst he
          rcases List.mem_append.mp hs3 with h3 | h3
          · exact h1b k rid rk room (by rw [← hk2r]; exact hne) hk hroom s2 hs2 s3 h3
          · simp at h3
            subst h3
            have := (h1a k rk hk).1 s2 hs2
            simp only
            omega
        · rw [if_neg hkr] at hk
          rw [if_neg hk2r] at hk2
          exact h1b k k2 rk rk2 hne hk hk2 s2 hs2 s3 hs3
      · intro sid hsid
        have := h2b sid hsid
        simp only
        omega
      · intro sid hsid k rk hk s2 hs2 hsid2
        simp only at hk
        by_cases hkr : k = rid
        · rw [if_pos hkr] at hk
          injection hk with he
          subst he
          rcases List.mem_append.mp hs2 with h3 | h3
          · exact h2c sid hsid rid room hroom s2 h3 hsid2
          · simp at h3
            subst h3
            exfalso
            have := h2b sid hsid
            simp only at hsid2
            omega
        · rw [if_neg hkr] at hk
          exact h2c sid hsid k rk hk s2 hs2 hsid2

lemma c1_leaveGuest_preserve (st : PhotoV3State) (rid g : String) (now : ℕ)
    (h : c1Inv st) :
    c1Inv { st with mgr := (leaveGuest st.mgr rid g now).1 } := by
  obtain ⟨h1, h2⟩ := h
  cases hroom : st.mgr.rooms rid with
  | none =>
    simp only [leaveGuest, hroom]
    exact ⟨h1, h2⟩
  | some room =>
    by_cases hguest : room.currentGuestId = some g
    · cases hlast : (room.completedSessions.filter (sessionMatchesCurrent g)).getLast? with
      | none =>
        simp only [leaveGuest, hroom, if_pos hguest, hlast]
        exact inv_transfer_setRoom st.mgr rid room _ st.mergeExecLog hroom rfl
          (fun t ht => ⟨t, ht, rfl, fun hx => hx⟩) h1 h2
      | some s0 =>
        by_cases hstat : s0.status = SessionStatus.inProgress
        · simp only [leaveGuest, hroom, if_pos hguest, hlast, if_pos hstat]
          refine inv_transfer_setRoom st.mgr rid room _ st.mergeExecLog hroom ?_ ?_ h1 h2
          · exact ulm_map_congr (sessionMatchesCurrent g)
              (fun t => { t with status := SessionStatus.completed
                                 completedAt := some now })
              V3Session.sessionId (fun a => rfl) room.completedSessions
          · intro t ht
            rcases ulm_mem _ _ _ t ht with hold | ⟨y, hy, hpy, hty⟩
            · exact ⟨t, hold, rfl, fun hx => hx⟩
            · subst hty
              exact ⟨y, hy, rfl, fun hx => hx⟩
        · simp only [leaveGuest, hroom, if_pos hguest, hlast, if_neg hstat]
          exact inv_transfer_setRoom st.mgr rid room _ st.mergeExecLog hroom rfl
            (fun t ht => ⟨t, ht, rfl, fun hx => hx⟩) h1 h2
    · simp only [leaveGuest, hroom, if_neg hguest]
      exact ⟨h1, h2⟩

lemma c1_destroyRoom_preserve (st : PhotoV3State) (rid : String)
    (h : c1Inv st) : c1Inv { st with mgr := (destroyRoom st.mgr rid).1 } := by
  obtain ⟨⟨h1a, h1b⟩, h2a, h2b, h2c⟩ := h
  cases hroom : st.mgr.rooms rid with
  | none =>
    simp only [destroyRoom, hroom]
    exact ⟨⟨h1a, h1b⟩, h2a, h2b, h2c⟩
  | some room =>
    simp only [destroyRoom, hroom]
    refine ⟨⟨?_, ?_⟩, h2a, h2b, ?_⟩
    · intro k rk hk
      simp only at hk
      by_cases hkr : k = rid
      · rw [if_pos hkr] at hk
        cases hk
      · rw [if_neg hkr] at hk
        exact h1a k rk hk
    · intro k k2 rk rk2 hne hk hk2
      simp only at hk hk2
      by_cases hkr : k = rid
      · rw [if_pos hkr] at hk
        cases hk
      · by_cases hk2r : k2 = rid
        · rw [if_pos hk2r] at hk2
          cases hk2
        · rw [if_neg hkr] at hk
          rw [if_neg hk2r] at hk2
          exact h1b k k2 rk rk2 hne hk hk2
    · intro sid hsid k rk hk s2 hs2 hsid2
      simp only at hk
      by_cases hkr : k = rid
      · rw [if_pos hkr] at hk
        cases hk
      · rw [if_neg hkr] at hk
        exact h2c sid hsid k rk hk s2 hs2 hsid2

lemma c1_upload_preserve (st : PhotoV3State) (rid uid : String) (role : Role)
    (url : String) (now : ℕ) (h : c1Inv st) :
    c1Inv (uploadStep st rid uid role url now) := by
  obtain ⟨h1, h2⟩ := h
  have hmut : mgrIdsInv (V3.updateSessionPhoto st.mgr rid role url now).1 ∧
      logMergedInv (V3.updateSessionPhoto st.mgr rid role url now).1
        st.mergeExecLog := by
    refine inv_mutate_ids st.mgr rid _ now st.mergeExecLog ?_ ?_ h1 h2
    · intro s2
      cases role <;> rfl
    · intro s2 hx
      cases role <;> exact hx
  cases hroom : getRoom st.mgr rid with
  | none => simp only [uploadStep, hroom]; exact ⟨h1, h2⟩
  | some room =>
    simp only [uploadStep, hroom]
    by_cases hhost : role = Role.host ∧ room.hostId ≠ uid
    · rw [if_pos hhost]
      exact ⟨h1, h2⟩
    · rw [if_neg hhost]
      by_cases hg : role = Role.guest ∧ room.currentGuestId ≠ some uid
      · rw [if_pos hg]
        exact ⟨h1, h2⟩
      · rw [if_neg hg]
        by_cases hready : V3.isSessionReadyForMerge
            (V3.updateSessionPhoto st.mgr rid role url now).1 rid ∧
            rid ∉ st.mergeInProgress
        · rw [if_pos hready]
          exact hmut
        · rw [if_neg hready]
          exact hmut

end V3

namespace V3

lemma c1_runMerge_preserve (st : PhotoV3State) (rid mergedUrl : String)
    (now : ℕ) (h : c1Inv st) : c1Inv (runMergeStep st rid mergedUrl now) := by
  obtain ⟨h1, h2⟩ := h
  by_cases hp : rid ∈ st.pendingMerges
  · cases hroom : st.mgr.rooms rid with
    | none =>
      simp only [runMergeStep, if_pos hp, getCurrentSession, hroom]
      exact ⟨h1, h2⟩
    | some room =>
      cases hguest : room.currentGuestId with
      | none =>
        simp only [runMergeStep, if_pos hp, getCurrentSession, hroom, hguest]
        exact ⟨h1, h2⟩
      | some g =>
        cases hlast : (room.completedSessions.filter (sessionMatchesCurrent g)).getLast? with
        | none =>
          simp only [runMergeStep, if_pos hp, getCurrentSession, hroom, hguest, hlast]
          exact ⟨h1, h2⟩
        | some s =>
          have hcur : getCurrentSession st.mgr rid = some s := by
            simp only [getCurrentSession, hroom, hguest, hlast]
          by_cases hmiss : (s.hostPhotoUrl.isNone = true) ∨ (s.guestPhotoUrl.isNone = true)
          · simp only [runMergeStep, if_pos hp, hcur]
            rw [if_pos hmiss]
            exact ⟨h1, h2⟩
          · cases hmgd : s.mergedPhotoUrl with
            | some u =>
              simp only [runMergeStep, if_pos hp, hcur]
              rw [if_neg hmiss]
              simp only [hmgd]
              exact inv_mutate_ids st.mgr rid _ now st.mergeExecLog
                (fun s2 => rfl) (fun s2 hx => hx) h1 h2
            | none =>
              simp only [runMergeStep, if_pos hp, hcur]
              rw [if_neg hmiss]
              simp only [hmgd]
              obtain ⟨h1a, h1b⟩ := h1
              obtain ⟨h2a, h2b, h2c⟩ := h2
              have hmemf := List.mem_filter.mp (mem_of_getLast?_eq hlast)
              have hsmem : s ∈ room.completedSessions := hmemf.1
              have hps : sessionMatchesCurrent g s = true := hmemf.2
              rcases ulm_decomp (sessionMatchesCurrent g) room.completedSessions s hlast
                with ⟨l1, l2, hsess, hl2, _, hulm⟩
              have hpfm : sessionMatchesCurrent g
                  ({ s with mergedPhotoUrl := some mergedUrl }) = true := hps
              have hA : (updateSessionMergedPhoto st.mgr rid mergedUrl now).1 =
                  setRoom st.mgr rid
                    { room with
                      completedSessions :=
                        updateLastMatching (sessionMatchesCurrent g)
                          (fun t => { t with mergedPhotoUrl := some mergedUrl })
                          room.completedSessions
                      lastActivityAt := now } := by
                simp only [updateSessionMergedPhoto, mutateCurrentSession, hroom,
                  hguest, hlast]
                rfl
              have hAsess : (updateLastMatching (sessionMatchesCurrent g)
                  (fun t => { t with mergedPhotoUrl := some mergedUrl })
                  room.completedSessions) =
                  l1 ++ { s with mergedPhotoUrl := some mergedUrl } :: l2 := by
                rw [hsess]
                exact ulm_of_decomp _ _ l1 l2 s hps hl2
              rw [hA]
              have hlastA : ((updateLastMatching (sessionMatchesCurrent g)
                  (fun t => { t with mergedPhotoUrl := some mergedUrl })
                  room.completedSessions).filter
                    (sessionMatchesCurrent g)).getLast? =
                  some { s with mergedPhotoUrl := some mergedUrl } := by
                rw [hAsess]
                exact getLast?_filter_decomp _ l1 l2 _ hpfm hl2
              have hB : (completeSession (setRoom st.mgr rid
                  { room with
                    completedSessions :=
                      updateLastMatching (sessionMatchesCurrent g)
                        (fun t => { t with mergedPhotoUrl := some mergedUrl })
                        room.completedSessions
                    lastActivityAt := now }) rid mergedUrl now).1 =
                  setRoom (setRoom st.mgr rid
                    { room with
                      completedSessions :=
                        updateLastMatching (sessionMatchesCurrent g)
                          (fun t => { t with mergedPhotoUrl := some mergedUrl })
                          room.completedSessions
                      lastActivityAt := now }) rid
                    { room with
                      completedSessions :=
                        updateLastMatching (sessionMatchesCurrent g)
                          (fun t => { t with frameResultUrl := some mergedUrl,
                                             status := SessionStatus.completed,
                                             completedAt := some now })
                          (updateLastMatching (sessionMatchesCurrent g)
                            (fun t => { t with mergedPhotoUrl := some mergedUrl })
                            room.completedSessions)
                      lastActivityAt := now } := by
                simp only [completeSession, mutateCurrentSession, setRoom_rooms_self,
                  hguest, hlastA]
                rfl
              have hBsess : updateLastMatching (sessionMatchesCurrent g)
                  (fun t => { t with frameResultUrl := some mergedUrl,
                                     status := SessionStatus.completed,
                                     completedAt := some now })
                  (updateLastMatching (sessionMatchesCurrent g)
                    (fun t => { t with mergedPhotoUrl := some mergedUrl })
                    room.completedSessions) =
                  l1 ++ { s with mergedPhotoUrl := some mergedUrl,
                                 frameResultUrl := some mergedUrl,
                                 status := SessionStatus.completed,
                                 completedAt := some now } :: l2 := by
                rw [hAsess]
                exact ulm_of_decomp _ _ l1 l2 _ hpfm hl2
              have hcollapse : setRoom (setRoom st.mgr rid
                  { room with
                    completedSessions :=
                      updateLastMatching (sessionMatchesCurrent g)
                        (fun t => { t with mergedPhotoUrl := some mergedUrl })
                        room.completedSessions
                    lastActivityAt := now }) rid
                  { room with
                    completedSessions :=
                      updateLastMatching (sessionMatchesCurrent g)
                        (fun t => { t with frameResultUrl := some mergedUrl,
                                           status := SessionStatus.completed,
                                           completedAt := some now })
                        (updateLastMatching (sessionMatchesCurrent g)
                          (fun t => { t with mergedPhotoUrl := some mergedUrl })
                          room.completedSessions)
                    lastActivityAt := now } =
                  setRoom st.mgr rid
                  { room with
                    completedSessions :=
                      updateLastMatching (sessionMatchesCurrent g)
                        (fun t => { t with frameResultUrl := some mergedUrl,
                                           status := SessionStatus.completed,
                                           completedAt := some now })
                        (updateLastMatching (sessionMatchesCurrent g)
                          (fun t => { t with mergedPhotoUrl := some mergedUrl })
                          room.completedSessions)
                    lastActivityAt := now } := by
                unfold setRoom
                congr 1
                funext k
                by_cases hk : k = rid
                · simp [hk]
                · simp [hk]
              rw [hB, hcollapse]
              have hnodup := (h1a rid room hroom).2
              rw [hsess] at hnodup
              simp only [List.map_append, List.map_cons] at hnodup
              rw [List.nodup_append] at hnodup
              obtain ⟨hn1, hn2, hdisj⟩ := hnodup
              have hsid_l2 : s.sessionId ∉ l2.map V3Session.sessionId :=
                (List.nodup_cons.mp hn2).1
              have hids : ∀ t ∈ room.completedSessions,
                  t.sessionId < st.mgr.nextSessionId :=
                (h1a rid room hroom).1
              refine ⟨?_, ?_, ?_, ?_⟩
              · refine (inv_transfer_setRoom st.mgr rid room _ st.mergeExecLog
                  hroom ?_ ?_ ⟨h1a, h1b⟩ ⟨h2a, h2b, h2c⟩).1
                · show (updateLastMatching (sessionMatchesCurrent g) _
                    (updateLastMatching (sessionMatchesCurrent g) _
                      room.completedSessions)).map V3Session.sessionId = _
                  rw [hBsess, hsess]
                  simp
                · intro t ht
                  have ht2 : t ∈ l1 ++ { s with mergedPhotoUrl := some mergedUrl, frameResultUrl := some mergedUrl, status := SessionStatus.completed, completedAt := some now } :: l2 := by
                    rw [← hBsess]
                    exact ht
                  rcases List.mem_append.mp ht2 with ht3 | ht3
                  · refine ⟨t, ?_, rfl, fun hx => hx⟩
                    rw [hsess]
                    exact List.mem_append_left _ ht3
                  · rcases List.mem_cons.mp ht3 with ht4 | ht4
                    · subst ht4
                      exact ⟨s, hsmem, rfl, fun _ => rfl⟩
                    · refine ⟨t, ?_, rfl, fun hx => hx⟩
                      rw [hsess]
                      exact List.mem_append_right _ (List.mem_cons_of_mem _ ht4)
              · refine List.nodup_cons.mpr ⟨?_, h2a⟩
                intro hin
                have := h2c s.sessionId hin rid room hroom s hsmem rfl
                rw [hmgd] at this
                simp at this
              · intro sid hsid
                rcases List.mem_cons.mp hsid with hsid0 | hsidold
                · subst hsid0
                  exact hids s hsmem
                · exact h2b sid hsidold
              · intro sid hsid k rk hk t ht htid
                rw [setRoom_lookup] at hk
                by_cases hkr : k = rid
                · rw [if_pos hkr] at hk
                  injection hk with he
                  subst he
                  have ht2 : t ∈ l1 ++ { s with mergedPhotoUrl := some mergedUrl, frameResultUrl := some mergedUrl, status := SessionStatus.completed, completedAt := some now } :: l2 := by
                    rw [← hBsess]
                    exact ht
                  rcases List.mem_append.mp ht2 with ht3 | ht3
                  · rcases List.mem_cons.mp hsid with hsid0 | hsidold
                    · exfalso
                      subst hsid0
                      exact hdisj (List.mem_map_of_mem _ ht3)
                        (by rw [← htid]; exact List.mem_cons_self _ _)
                    · refine h2c sid hsidold rid room hroom t ?_ htid
                      rw [hsess]
                      exact List.mem_append_left _ ht3
                  · rcases List.mem_cons.mp ht3 with ht4 | ht4
                    · subst ht4
                      rfl
                    · rcases List.mem_cons.mp hsid with hsid0 | hsidold
                      · exfalso
                        subst hsid0
                        apply hsid_l2
                        rw [← htid]
                        exact List.mem_map_of_mem _ ht4
                      · refine h2c sid hsidold rid room hroom t ?_ htid
                        rw [hsess]
                        exact List.mem_append_right _ (List.mem_cons_of_mem _ ht4)
                · rw [if_neg hkr] at hk
                  rcases List.mem_cons.mp hsid with hsid0 | hsidold
                  · exfalso
                    subst hsid0
                    exact h1b k rid rk room hkr hk hroom t ht s hsmem htid
                  · exact h2c sid hsidold k rk hk t ht htid
  · simp only [runMergeStep, if_neg hp]
    exact ⟨h1, h2⟩

end V3

namespace V3

lemma c1_apply (st : PhotoV3State) (ev : PhotoV3Event) (h : c1Inv st) :
    c1Inv (PhotoV3Event.apply st ev) := by
  cases ev with
  | createRoom rid h0 s now => exact c1_createRoom_preserve st rid h0 s now h
  | joinGuest rid g now => exact c1_joinGuest_preserve st rid g now h
  | leaveGuest rid g now => exact c1_leaveGuest_preserve st rid g now h
  | destroyRoom rid => exact c1_destroyRoom_preserve st rid h
  | upload rid uid role url now => exact c1_upload_preserve st rid uid role url now h
  | runMerge rid mergedUrl now => exact c1_runMerge_preserve st rid mergedUrl now h

lemma c1_run (evs : List PhotoV3Event) : c1Inv (runPhotoV3 evs) := by
  suffices h : ∀ st, c1Inv st → c1Inv (evs.foldl PhotoV3Event.apply st) by
    exact h PhotoV3State.init c1Inv_init
  induction evs with
  | nil => intro st hst; exact hst
  | cons ev evs ih =>
    intro st hst
    exact ih _ (c1_apply st ev hst)

end V3

/-- C1: along any event trace of the photo-v3 flow, the actual image merge
executes at most once per session (each session id appears at most once in
the merge-execution log); and the upload handler dispatches a merge only
when the per-room in-flight marker is absent, setting the marker in the
same handler step, and only when the session is ready for merge. -/
theorem c1_merge_dispatched_once (evs : List PhotoV3Event) :
    (∀ sid, (runPhotoV3 evs).mergeExecLog.count sid ≤ 1) ∧
    (∀ st rid uid role url now,
      (uploadStep st rid uid role url now).pendingMerges ≠ st.pendingMerges →
        rid ∉ st.mergeInProgress ∧
        rid ∈ (uploadStep st rid uid role url now).mergeInProgress ∧
        (uploadStep st rid uid role url now).pendingMerges =
          rid :: st.pendingMerges ∧
        V3.isSessionReadyForMerge (uploadStep st rid uid role url now).mgr rid =
          true) := by
  constructor
  · intro sid
    exact List.nodup_iff_count_le_one.mp (V3.c1_run evs).2.1 sid
  · intro st rid uid role url now hne
    cases hroom : V3.getRoom st.mgr rid with
    | none =>
      exfalso
      apply hne
      simp only [uploadStep, hroom]
    | some room =>
      by_cases hhost : role = Role.host ∧ room.hostId ≠ uid
      · exfalso
        apply hne
        simp only [uploadStep, hroom]
        rw [if_pos hhost]
      · by_cases hg : role = Role.guest ∧ room.currentGuestId ≠ some uid
        · exfalso
          apply hne
          simp only [uploadStep, hroom]
          rw [if_neg hhost, if_pos hg]
        · by_cases hready : V3.isSessionReadyForMerge
              (V3.updateSessionPhoto st.mgr rid role url now).1 rid = true ∧
              rid ∉ st.mergeInProgress
          · refine ⟨hready.2, ?_, ?_, ?_⟩
            · simp only [uploadStep, hroom]
              rw [if_neg hhost, if_neg hg, if_pos hready]
              exact List.mem_cons_self _ _
            · simp only [uploadStep, hroom]
              rw [if_neg hhost, if_neg hg, if_pos hready]
            · simp only [uploadStep, hroom]
              rw [if_neg hhost, if_neg hg, if_pos hready]
              exact hready.1
          · exfalso
            apply hne
            simp only [uploadStep, hroom]
            rw [if_neg hhost, if_neg hg, if_neg hready]

/-- Witness for `c1_merge_dispatched_once`: a concrete trace in which both
photos arrive, a merge is dispatched and runs; and the dispatching upload
step taken from the three-event prefix. -/
theorem c1_merge_dispatched_once_witness :
    ((runPhotoV3
        [PhotoV3Event.createRoom "R" "h" defaultHostSettings 0,
         PhotoV3Event.joinGuest "R" "g" 1,
         PhotoV3Event.upload "R" "h" Role.host "h.png" 2,
         PhotoV3Event.upload "R" "g" Role.guest "g.png" 3,
         PhotoV3Event.runMerge "R" "m.png" 4]).mergeExecLog.count 0 ≤ 1) ∧
    ((uploadStep (runPhotoV3
        [PhotoV3Event.createRoom "R" "h" defaultHostSettings 0,
         PhotoV3Event.joinGuest "R" "g" 1,
         PhotoV3Event.upload "R" "h" Role.host "h.png" 2])
        "R" "g" Role.guest "g.png" 3).pendingMerges ≠
      (runPhotoV3
        [PhotoV3Event.createRoom "R" "h" defaultHostSettings 0,
         PhotoV3Event.joinGuest "R" "g" 1,
         PhotoV3Event.upload "R" "h" Role.host "h.png" 2]).pendingMerges) ∧
    "R" ∈ (uploadStep (runPhotoV3
        [PhotoV3Event.createRoom "R" "h" defaultHostSettings 0,
         PhotoV3Event.joinGuest "R" "g" 1,
         PhotoV3Event.upload "R" "h" Role.host "h.png" 2])
        "R" "g" Role.guest "g.png" 3).mergeInProgress := by
  have hne : (uploadStep (runPhotoV3
      [PhotoV3Event.createRoom "R" "h" defaultHostSettings 0,
       PhotoV3Event.joinGuest "R" "g" 1,
       PhotoV3Event.upload "R" "h" Role.host "h.png" 2])
      "R" "g" Role.guest "g.png" 3).pendingMerges ≠
      (runPhotoV3
        [PhotoV3Event.createRoom "R" "h" defaultHostSettings 0,
         PhotoV3Event.joinGuest "R" "g" 1,
         PhotoV3Event.upload "R" "h" Role.host "h.png" 2]).pendingMerges := by
    decide
  refine ⟨(c1_merge_dispatched_once
      [PhotoV3Event.createRoom "R" "h" defaultHostSettings 0,
       PhotoV3Event.joinGuest "R" "g" 1,
       PhotoV3Event.upload "R" "h" Role.host "h.png" 2,
       PhotoV3Event.upload "R" "g" Role.guest "g.png" 3,
       PhotoV3Event.runMerge "R" "m.png" 4]).1 0, hne, ?_⟩
  exact ((c1_merge_dispatched_once []).2 _ "R" "g" Role.guest "g.png" 3 hne).2.1

/-! ## Fixed-pair RoomManager with grace-period deletion (C3, C8)

Embeds the `RoomManager` with the 30-second grace period
(`rejoinRoomAsHost` / `removeUser` with a scheduled deletion).  The
`deletionTimerId` becomes a `deletionPending` flag: `setTimeout` sets it,
`clearTimeout` clears it, and a separate `fireDeletionTimer` event models
the scheduled callback running at its deadline (it only has an effect while
the flag is still set, i.e. the timer was not cancelled).  Room ids are
produced by `generateRoomId` (random, collision-checked); the embedding
takes the generated id as an argument. -/

/-- `CapturedPhoto` from the shared types. -/
structure CapturedPhoto where
  photoNumber : ℕ
  hostImageUrl : Option String
  guestImageUrl : Option String
  mergedImageUrl : Option String
  timestamp : ℕ
deriving DecidableEq, Repr

/-- Per-role photo selections. -/
structure SelectedPhotos where
  host : List ℕ
  guest : List ℕ
deriving DecidableEq, Repr

/-- `SessionSettings` from the shared types. -/
structure SessionSettings where
  recordingDuration : ℕ
  captureInterval : ℕ
deriving DecidableEq, Repr

/-- `AspectRatioSettings` from the shared types (ratio kept as its label). -/
structure AspectRatioSettings where
  ratio : String
  width : ℕ
  height : ℕ
deriving DecidableEq, Repr

/-- `FrameLayoutSettings` from the shared types. -/
structure FrameLayoutSettings where
  layoutId : String
  slotCount : ℕ
  totalPhotos : ℕ
  selectablePhotos : ℕ
deriving DecidableEq, Repr

/-- `UploadedSegment` from the shared types. -/
structure UploadedSegment where
  photoNumber : ℕ
  filename : String
  filePath : String
  fileSize : ℕ
  uploadedAt : ℕ
  userId : String
deriving DecidableEq, Repr

/-- `Room` from the shared types (fixed-pair mode), with `deletionTimerId`
modelled as the `deletionPending` flag. -/
structure Room where
  id : String
  hostId : String
  guestId : Option String
  createdAt : ℕ
  capturedPhotos : List CapturedPhoto
  selectedPhotos : SelectedPhotos
  sessionSettings : Option SessionSettings
  aspectRatioSettings : Option AspectRatioSettings
  frameLayoutSettings : Option FrameLayoutSettings
  deletionPending : Bool
  uploadedSegments : List UploadedSegment
deriving DecidableEq, Repr

/-- The fixed-pair `RoomManager` state: its `rooms` map and the
`userToRoom` map. -/
structure RoomManager where
  rooms : String → Option Room
  userToRoom : String → Option String

/-- The manager with no rooms. -/
def RoomManager.init : RoomManager :=
  { rooms := fun _ => none, userToRoom := fun _ => none }

namespace RM

/-- `createRoom(hostId)` (the freshly generated 6-character id is passed
in as `roomId`). -/
def createRoom (m : RoomManager) (roomId hostId : String) (now : ℕ) :
    RoomManager :=
  let room : Room :=
    { id := roomId
      hostId := hostId
      guestId := none
      createdAt := now
      capturedPhotos := []
      selectedPhotos := { host := [], guest := [] }
      sessionSettings := none
      aspectRatioSettings := none
      frameLayoutSettings := none
      deletionPending := false
      uploadedSegments := [] }
  { rooms := fun k => if k = roomId then some room else m.rooms k
    userToRoom := fun u => if u = hostId then some roomId else m.userToRoom u }

/-- `rejoinRoomAsHost(roomId, hostId)`: requires an existing room with a
matching host id; cancels a scheduled deletion and reinstalls the host's
user-to-room mapping. -/
def rejoinRoomAsHost (m : RoomManager) (roomId hostId : String) :
    RoomManager × Bool :=
  match m.rooms roomId with
  | none => (m, false)
  | some room =>
    if room.hostId ≠ hostId then (m, false)
    else
      let room2 := { room with deletionPending := false }
      ({ rooms := fun k => if k = roomId then some room2 else m.rooms k
         userToRoom := fun u => if u = hostId then some roomId else m.userToRoom u },
       true)

/-- `joinRoom(roomId, guestId)`. -/
def joinRoom (m : RoomManager) (roomId guestId : String) :
    RoomManager × Bool :=
  match m.rooms roomId with
  | none => (m, false)
  | some room =>
    if room.guestId.isSome ∧ room.guestId ≠ some guestId then (m, false)
    else
      let room2 := { room with guestId := some guestId }
      ({ rooms := fun k => if k = roomId then some room2 else m.rooms k
         userToRoom := fun u => if u = guestId then some roomId else m.userToRoom u },
       true)

/-- `getRoom(roomId)`. -/
def getRoom (m : RoomManager) (roomId : String) : Option Room :=
  m.rooms roomId

/-- `removeUser(userId)`: a host departure schedules the room's deletion
after the 30-second grace period (the pending flag); a guest departure
clears the guest slot immediately. -/
def removeUser (m : RoomManager) (userId : String) :
    RoomManager × Option String :=
  match m.userToRoom userId with
  | none => (m, none)
  | some roomId =>
    match m.rooms roomId with
    | none => (m, none)
    | some room =>
      if room.hostId = userId then
        let room2 := { room with deletionPending := true }
        ({ rooms := fun k => if k = roomId then some room2 else m.rooms k
           userToRoom := fun u => if u = userId then none else m.userToRoom u },
         some roomId)
      else if room.guestId = some userId then
        let room2 := { room with guestId := none }
        ({ rooms := fun k => if k = roomId then some room2 else m.rooms k
           userToRoom := fun u => if u = userId then none else m.userToRoom u },
         some roomId)
      else (m, some roomId)

/-- The scheduled deletion callback reaching its deadline: it runs only if
the timer is still pending (not cancelled), deletes the room, and releases
the guest's user-to-room mapping. -/
def fireDeletionTimer (m : RoomManager) (roomId : String) : RoomManager :=
  match m.rooms roomId with
  | none => m
  | some room =>
    if room.deletionPending then
      { rooms := fun k => if k = roomId then none else m.rooms k
        userToRoom := fun u =>
          match room.guestId with
          | some g => if u = g then none else m.userToRoom u
          | none => m.userToRoom u }
    else m

end RM

/-- C3: in fixed-pair (grace-period) mode, a rejoin by the same host id
before the deadline cancels the deletion timer and leaves the room's guest
id, captured photos and settings unchanged (so the fired timer is then a
no-op); if the deadline elapses while the deletion is still pending, the
room is removed — subsequent id-addressed operations report not-found /
failure — and the guest's user-to-room mapping is released. -/
theorem c3_grace_period (m : RoomManager) (rid hostId : String) (room : Room)
    (hroom : m.rooms rid = some room) :
    (room.hostId = hostId →
      (RM.rejoinRoomAsHost m rid hostId).2 = true ∧
      ∃ room2, (RM.rejoinRoomAsHost m rid hostId).1.rooms rid = some room2 ∧
        room2.guestId = room.guestId ∧
        room2.capturedPhotos = room.capturedPhotos ∧
        room2.selectedPhotos = room.selectedPhotos ∧
        room2.sessionSettings = room.sessionSettings ∧
        room2.aspectRatioSettings = room.aspectRatioSettings ∧
        room2.frameLayoutSettings = room.frameLayoutSettings ∧
        room2.deletionPending = false ∧
        RM.fireDeletionTimer (RM.rejoinRoomAsHost m rid hostId).1 rid =
          (RM.rejoinRoomAsHost m rid hostId).1) ∧
    (room.deletionPending = true →
      RM.getRoom (RM.fireDeletionTimer m rid) rid = none ∧
      (∀ g, (RM.joinRoom (RM.fireDeletionTimer m rid) rid g).2 = false) ∧
      (∀ h2, (RM.rejoinRoomAsHost (RM.fireDeletionTimer m rid) rid h2).2 = false) ∧
      (∀ g, room.guestId = some g →
        (RM.fireDeletionTimer m rid).userToRoom g = none)) := by
  constructor
  · intro hhost
    have hcond : ¬ room.hostId ≠ hostId := by
      rw [hhost]
      exact fun hc => hc rfl
    refine ⟨?_, ?_⟩
    · simp only [RM.rejoinRoomAsHost, hroom]
      rw [if_neg hcond]
    · refine ⟨{ room with deletionPending := false }, ?_, rfl, rfl, rfl, rfl,
        rfl, rfl, rfl, ?_⟩
      · simp only [RM.rejoinRoomAsHost, hroom]
        rw [if_neg hcond]
        simp
      · have hlook : (RM.rejoinRoomAsHost m rid hostId).1.rooms rid =
            some { room with deletionPending := false } := by
          simp only [RM.rejoinRoomAsHost, hroom]
          rw [if_neg hcond]
          simp
        simp only [RM.fireDeletionTimer, hlook]
        rw [if_neg (by simp)]
  · intro hpend
    have hdel : (RM.fireDeletionTimer m rid).rooms rid = none := by
      simp only [RM.fireDeletionTimer, hroom]
      rw [if_pos hpend]
      simp
    refine ⟨hdel, ?_, ?_, ?_⟩
    · intro g
      simp only [RM.joinRoom, hdel]
    · intro h2
      simp only [RM.rejoinRoomAsHost, hdel]
    · intro g hg
      simp only [RM.fireDeletionTimer, hroom]
      rw [if_pos hpend]
      simp only [hg]
      simp

/-- Witness for `c3_grace_period` on the concrete room built by a host
join, a guest join, and a host disconnect. -/
theorem c3_grace_period_witness :
    ((RM.rejoinRoomAsHost
        (RM.removeUser
          ((RM.joinRoom (RM.createRoom RoomManager.init "R" "h" 0) "R" "g").1)
          "h").1 "R" "h").2 = true) ∧
    RM.getRoom (RM.fireDeletionTimer
        (RM.removeUser
          ((RM.joinRoom (RM.createRoom RoomManager.init "R" "h" 0) "R" "g").1)
          "h").1 "R") "R" = none ∧
    (RM.fireDeletionTimer
        (RM.removeUser
          ((RM.joinRoom (RM.createRoom RoomManager.init "R" "h" 0) "R" "g").1)
          "h").1 "R").userToRoom "g" = none := by
  obtain ⟨hA, hB⟩ := c3_grace_period
    (RM.removeUser
      ((RM.joinRoom (RM.createRoom RoomManager.init "R" "h" 0) "R" "g").1)
      "h").1 "R" "h" _ rfl
  obtain ⟨h1, _⟩ := hA rfl
  obtain ⟨h2, _, _, h4⟩ := hB rfl
  exact ⟨h1, h2, h4 "g" rfl⟩

/-! ## Segment-upload flow (C8)

The upload-segment route of the video-v2 router is present in the sources
and embedded below as `uploadSegmentRoute`.  The segment store it calls is
not: only its callers and the `UploadedSegment` declaration are in the
snapshot, so the store is modelled from the spec. -/

/-- Broadcasts emitted by the upload-segment route. -/
inductive SegEvent where
  | segmentUploaded (roomId : String) (photoNumber : ℕ) (filename userId : String)
  | allSegmentsUploaded (roomId : String) (segmentCount : ℕ)
deriving DecidableEq, Repr

namespace RM

/-- Modelled from the spec: `RoomManager.addUploadedSegment` is missing
from the snapshot's sources (only its caller in the upload-segment route
and the `UploadedSegment` / `Room` declarations are present).  Spec §3:
a room "owns Uploaded Video Segments, keyed by slot number"; §4.4: "track
a set of uploaded segments per room keyed by slot number" — so storing a
segment replaces any previously stored segment with the same slot
number. -/
def addUploadedSegment (m : RoomManager) (roomId : String)
    (seg : UploadedSegment) : RoomManager :=
  match m.rooms roomId with
  | none => m
  | some room =>
    let room2 := { room with uploadedSegments :=
      room.uploadedSegments.filter (fun s => s.photoNumber ≠ seg.photoNumber)
        ++ [seg] }
    { m with rooms := fun k => if k = roomId then some room2 else m.rooms k }

/-- Modelled from the spec: `RoomManager.getUploadedSegments`, the read
side of the per-room segment set. -/
def getUploadedSegments (m : RoomManager) (roomId : String) :
    List UploadedSegment :=
  match m.rooms roomId with
  | none => []
  | some room => room.uploadedSegments

/-- The `/upload-segment` route: validate the slot number and the room,
store the segment, broadcast `segment-uploaded`, and broadcast
`all-segments-uploaded` whenever the room's uploaded-segment count is 8
after the store. -/
def uploadSegmentRoute (m : RoomManager) (roomId userId : String)
    (photoNumber : ℕ) (filename filePath : String) (fileSize now : ℕ) :
    RoomManager × List SegEvent :=
  if photoNumber < 1 ∨ 8 < photoNumber then (m, [])
  else
    match m.rooms roomId with
    | none => (m, [])
    | some _ =>
      let seg : UploadedSegment :=
        { photoNumber := photoNumber
          filename := filename
          filePath := filePath
          fileSize := fileSize
          uploadedAt := now
          userId := userId }
      let m2 := addUploadedSegment m roomId seg
      let uploaded := getUploadedSegments m2 roomId
      (m2, SegEvent.segmentUploaded roomId photoNumber filename userId ::
        (if uploaded.length = 8 then
          [SegEvent.allSegmentsUploaded roomId 8] else []))

/-- A sequence of segment uploads to one room. -/
def runSegmentUploads (m : RoomManager) (roomId userId : String)
    (slots : List ℕ) (now : ℕ) : RoomManager × List SegEvent :=
  match slots with
  | [] => (m, [])
  | n :: rest =>
    let r := uploadSegmentRoute m roomId userId n "f" "p" 0 now
    let rr := runSegmentUploads r.1 roomId userId rest now
    (rr.1, r.2 ++ rr.2)

/-- Number of `all-segments-uploaded` broadcasts in an event list. -/
def countAllSegments (evs : List SegEvent) : ℕ :=
  evs.countP fun e =>
    match e with
    | SegEvent.allSegmentsUploaded _ _ => true
    | _ => false

end RM

/-- C8 counterexample: starting a fresh capture round, uploading slots
1..8 emits `all-segments-uploaded` once, but a ninth upload (re-uploading
slot 1, which replaces the stored segment and leaves the count at 8) emits
it AGAIN — the event is not one-time per round. -/
theorem c8_counterexample :
    RM.countAllSegments (RM.runSegmentUploads
      (RM.createRoom RoomManager.init "R" "h" 0) "R" "u"
      [1, 2, 3, 4, 5, 6, 7, 8] 0).2 = 1 ∧
    RM.countAllSegments (RM.runSegmentUploads
      (RM.createRoom RoomManager.init "R" "h" 0) "R" "u"
      [1, 2, 3, 4, 5, 6, 7, 8, 1] 0).2 = 2 := by
  constructor <;> rfl

namespace RM

lemma nodup_slots_length_le (l : List ℕ) (hnd : l.Nodup)
    (hr : ∀ n ∈ l, 1 ≤ n ∧ n ≤ 8) : l.length ≤ 8 := by
  have h1 : l.toFinset.card = l.length := List.toFinset_card_of_nodup hnd
  have h2 : l.toFinset ⊆ Finset.Icc 1 8 := by
    intro x hx
    rw [List.mem_toFinset] at hx
    exact Finset.mem_Icc.mpr (hr x hx)
  have h3 := Finset.card_le_card h2
  rw [h1, Nat.card_Icc] at h3
  omega

lemma runSegmentUploads_spec (slots : List ℕ) (m : RoomManager)
    (rid uid : String) (now : ℕ) (room : Room)
    (hroom : m.rooms rid = some room)
    (hrange : ∀ n ∈ slots, 1 ≤ n ∧ n ≤ 8)
    (hnums : ∀ n ∈ room.uploadedSegments.map UploadedSegment.photoNumber,
      1 ≤ n ∧ n ≤ 8)
    (hnd : (room.uploadedSegments.map UploadedSegment.photoNumber ++ slots).Nodup) :
    (∃ room2, (runSegmentUploads m rid uid slots now).1.rooms rid = some room2 ∧
      room2.uploadedSegments.map UploadedSegment.photoNumber =
        room.uploadedSegments.map UploadedSegment.photoNumber ++ slots) ∧
    countAllSegments (runSegmentUploads m rid uid slots now).2 =
      if room.uploadedSegments.length + slots.length = 8 ∧ slots ≠ [] then 1
      else 0 := by
  induction slots generalizing m room with
  | nil =>
    refine ⟨⟨room, ?_, by simp⟩, ?_⟩
    · simpa [runSegmentUploads] using hroom
    · simp [runSegmentUploads, countAllSegments]
  | cons n rest ih =>
    have hn : 1 ≤ n ∧ n ≤ 8 := hrange n (by simp)
    have hguard : ¬ (n < 1 ∨ 8 < n) := by omega
    have hndapp := hnd
    rw [List.nodup_append] at hndapp
    have hfresh : n ∉ room.uploadedSegments.map UploadedSegment.photoNumber := by
      intro hmem
      exact hndapp.2.2 hmem (List.mem_cons_self _ _)
    have hfilter : room.uploadedSegments.filter
        (fun s => s.photoNumber ≠ n) = room.uploadedSegments := by
      rw [List.filter_eq_self]
      intro s hs
      rw [decide_eq_true_eq]
      intro heq
      exact hfresh (heq ▸ List.mem_map_of_mem _ hs)
    have hm2 : addUploadedSegment m rid
        ⟨n, "f", "p", 0, now, uid⟩ =
        { m with rooms := fun k => if k = rid then some { room with uploadedSegments := room.uploadedSegments ++ [⟨n, "f", "p", 0, now, uid⟩] } else m.rooms k } := by
      simp only [addUploadedSegment, hroom, hfilter]
    have hlook2 : (addUploadedSegment m rid ⟨n, "f", "p", 0, now, uid⟩).rooms rid =
        some { room with uploadedSegments := room.uploadedSegments ++ [⟨n, "f", "p", 0, now, uid⟩] } := by
      rw [hm2]
      simp
    have hstep : uploadSegmentRoute m rid uid n "f" "p" 0 now =
        (addUploadedSegment m rid ⟨n, "f", "p", 0, now, uid⟩,
         SegEvent.segmentUploaded rid n "f" uid ::
          (if room.uploadedSegments.length + 1 = 8 then
            [SegEvent.allSegmentsUploaded rid 8] else [])) := by
      simp only [uploadSegmentRoute, hroom]
      rw [if_neg hguard]
      simp only [getUploadedSegments, hlook2]
      simp
    have hlen := nodup_slots_length_le _ hnd (by
      intro x hx
      rcases List.mem_append.mp hx with hx1 | hx1
      · exact hnums x hx1
      · exact hrange x hx1)
    rw [List.length_append, List.length_map, List.length_cons] at hlen
    have hih := ih (addUploadedSegment m rid ⟨n, "f", "p", 0, now, uid⟩)
      { room with uploadedSegments := room.uploadedSegments ++ [⟨n, "f", "p", 0, now, uid⟩] }
      hlook2
      (fun x hx => hrange x (List.mem_cons_of_mem _ hx))
      (by
        intro x hx
        simp only [List.map_append, List.map_cons, List.map_nil] at hx
        rcases List.mem_append.mp hx with hx1 | hx1
        · exact hnums x hx1
        · simp at hx1
          subst hx1
          exact hn)
      (by
        simp only [List.map_append, List.map_cons, List.map_nil]
        rw [List.append_assoc]
        simpa using hnd)
    obtain ⟨⟨room3, hlook3, hmap3⟩, hcount⟩ := hih
    constructor
    · refine ⟨room3, ?_, ?_⟩
      · show (runSegmentUploads m rid uid (n :: rest) now).1.rooms rid = some room3
        simp only [runSegmentUploads, hstep]
        exact hlook3
      · rw [hmap3]
        simp only [List.map_append, List.map_cons, List.map_nil]
        rw [List.append_assoc]
        rfl
    · show countAllSegments (runSegmentUploads m rid uid (n :: rest) now).2 = _
      simp only [runSegmentUploads, hstep]
      rw [show countAllSegments ((SegEvent.segmentUploaded rid n "f" uid ::
          (if room.uploadedSegments.length + 1 = 8 then
            [SegEvent.allSegmentsUploaded rid 8] else [])) ++
          (runSegmentUploads (addUploadedSegment m rid ⟨n, "f", "p", 0, now, uid⟩)
            rid uid rest now).2) =
          countAllSegments (if room.uploadedSegments.length + 1 = 8 then
            [SegEvent.allSegmentsUploaded rid 8] else []) +
          countAllSegments (runSegmentUploads
            (addUploadedSegment m rid ⟨n, "f", "p", 0, now, uid⟩)
            rid uid rest now).2 from by
        simp [countAllSegments, List.countP_append, List.countP_cons]]
      rw [hcount]
      cases rest with
      | nil =>
        simp only [List.length_nil, List.length_cons]
        by_cases h8 : room.uploadedSegments.length + 1 = 8
        · rw [if_pos h8]
          rw [if_neg (by simp), if_pos (by exact ⟨by omega, by simp⟩)]
          rfl
        · rw [if_neg h8]
          rw [if_neg (by simp), if_neg (by
            intro hc
            exact h8 (by omega))]
          rfl
      | cons r2 rest2 =>
        have hne8 : ¬ room.uploadedSegments.length + 1 = 8 := by
          simp only [List.length_cons] at hlen ⊢
          omega
        rw [if_neg hne8]
        simp only [countAllSegments, List.countP_nil, Nat.zero_add]
        by_cases hc : ({ room with uploadedSegments := room.uploadedSegments ++ [⟨n, "f", "p", 0, now, uid⟩] } : Room).uploadedSegments.length + (r2 :: rest2).length = 8
        · rw [if_pos ⟨hc, by simp⟩]
          rw [if_pos ⟨by
            simp only [List.length_append, List.length_cons,
              List.length_nil] at hc ⊢
            omega, by simp⟩]
        · rw [if_neg (fun hcc => hc hcc.1)]
          rw [if_neg (by
            intro hcc
            apply hc
            simp only [List.length_append, List.length_cons, List.length_nil]
            have := hcc.1
            simp only [List.length_cons] at this
            omega)]

end RM

/-- C8 (amended): within one capture round (empty segment set) in which no
slot number is uploaded twice, `all-segments-uploaded` is emitted exactly
once, on the upload that brings the uploaded-segment count from 7 to 8
(every proper prefix of fewer than 8 uploads emits it zero times); a
re-upload of an already-stored slot while the count is 8 emits it again
(see the counterexample), so the exactly-once guarantee holds only for
rounds with distinct slot numbers. -/
theorem c8_all_segments_event (slots : List ℕ) (m : RoomManager)
    (rid uid : String) (now : ℕ) (room : Room)
    (hroom : m.rooms rid = some room)
    (hempty : room.uploadedSegments = [])
    (hnd : slots.Nodup)
    (hrange : ∀ n ∈ slots, 1 ≤ n ∧ n ≤ 8) :
    RM.countAllSegments (RM.runSegmentUploads m rid uid slots now).2 =
      (if slots.length = 8 then 1 else 0) ∧
    (∀ k, k < 8 →
      RM.countAllSegments
        (RM.runSegmentUploads m rid uid (slots.take k) now).2 = 0) := by
  constructor
  · have h := (RM.runSegmentUploads_spec slots m rid uid now room hroom hrange
      (by rw [hempty]; intro x hx; simp at hx)
      (by rw [hempty]; simpa using hnd)).2
    rw [h, hempty]
    simp only [List.length_nil, Nat.zero_add]
    by_cases h8 : slots.length = 8
    · rw [if_pos ⟨h8, by intro hs; subst hs; simp at h8⟩, if_pos h8]
    · rw [if_neg (fun hc => h8 hc.1), if_neg h8]
  · intro k hk
    have h := (RM.runSegmentUploads_spec (slots.take k) m rid uid now room hroom
      (fun n hn => hrange n (List.take_subset k slots hn))
      (by rw [hempty]; intro x hx; simp at hx)
      (by
        rw [hempty]
        simp only [List.map_nil, List.nil_append]
        exact (List.take_sublist k slots).nodup hnd)).2
    rw [h, hempty]
    simp only [List.length_nil, Nat.zero_add]
    rw [if_neg]
    intro hc
    have h1 := hc.1
    rw [List.length_take] at h1
    omega

/-- Witness for `c8_all_segments_event` on a concrete fresh round. -/
theorem c8_all_segments_event_witness :
    RM.countAllSegments (RM.runSegmentUploads
      (RM.createRoom RoomManager.init "R" "h" 0) "R" "u"
      [1, 2, 3, 4, 5, 6, 7, 8] 0).2 = 1 ∧
    RM.countAllSegments (RM.runSegmentUploads
      (RM.createRoom RoomManager.init "R" "h" 0) "R" "u"
      ([1, 2, 3, 4, 5, 6, 7, 8].take 3) 0).2 = 0 := by
  obtain ⟨h1, h2⟩ := c8_all_segments_event [1, 2, 3, 4, 5, 6, 7, 8]
    (RM.createRoom RoomManager.init "R" "h" 0) "R" "u" 0 _ rfl rfl
    (by decide) (by decide)
  exact ⟨h1, h2 3 (by decide)⟩

/-! ## V3 signaling server (C4, C5, C9)

Embeds the message handlers of `V3SignalingServer`.  A `WebSocket` becomes
a connection identifier `ConnId`; `ws.send`/`ws.close` become explicit
outputs; the `Map<string, Client>` keyed by user id becomes a list in
insertion order (JS `Map` iteration order), with `delete`-then-`set`
moving a re-registered client to the end, as in the source.  Sockets are
taken to be open (`readyState === OPEN`). -/

/-- Connection identifier standing for a WebSocket object. -/
abbrev ConnId := ℕ

/-- `Client` from `V3SignalingServer`. -/
structure Client where
  ws : ConnId
  userId : String
  roomId : String
  role : Role
deriving DecidableEq, Repr

/-- The V3 signaling messages relevant to the join/leave/capture flow. -/
inductive V3Msg where
  | joined (roomId : String) (role : Role) (userId : String)
  | waitingForGuest (roomId : String)
  | guestJoined (roomId guestId : String) (hostSettings : HostSettings)
  | peerJoined (userId : String) (role : Role)
  | peerLeft (userId : String)
  | guestLeft (roomId guestId : String)
  | errorMsg (message : String)
  | countdownTick (roomId : String) (count : ℕ)
  | captureNow (roomId : String)
deriving DecidableEq, Repr

/-- Outbound effects of the V3 signaling server. -/
inductive V3Out where
  | send (ws : ConnId) (msg : V3Msg)
  | closeConn (ws : ConnId) (code : ℕ) (reason : String)
deriving DecidableEq, Repr

/-- State of the V3 signaling server. -/
structure V3SignalingServer where
  clients : List Client
  roomManager : V3RoomManager

/-- A fresh V3 signaling server over an empty room manager. -/
def V3SignalingServer.init : V3SignalingServer :=
  { clients := [], roomManager := V3RoomManager.init }

/-- `findClientByRole(roomId, role)`. -/
def v3FindClientByRole (st : V3SignalingServer) (roomId : String)
    (role : Role) : Option Client :=
  st.clients.find? fun c => c.roomId == roomId && c.role == role

/-- `broadcastToRoom(roomId, message)`: send to every client whose
recorded room id matches — the room manager is not consulted. -/
def v3BroadcastToRoom (st : V3SignalingServer) (roomId : String)
    (msg : V3Msg) : List V3Out :=
  (st.clients.filter fun c => c.roomId == roomId).map fun c =>
    V3Out.send c.ws msg

/-- One `countdown-tick-v3` broadcast of `startCountdown`. -/
def v3CountdownTick (st : V3SignalingServer) (roomId : String) (count : ℕ) :
    List V3Out :=
  v3BroadcastToRoom st roomId (V3Msg.countdownTick roomId count)

/-- The final `capture-now-v3` broadcast of `startCountdown`. -/
def v3CaptureNow (st : V3SignalingServer) (roomId : String) : List V3Out :=
  v3BroadcastToRoom st roomId (V3Msg.captureNow roomId)

/-- `handleHostJoin`: create the room with default settings or reconnect
to an existing one (host id must match); confirm and, with no guest
attached, ask the host to wait. -/
def v3HandleHostJoin (st : V3SignalingServer) (ws : ConnId)
    (roomId hostId : String) (now : ℕ) : V3SignalingServer × List V3Out :=
  match V3.getRoom st.roomManager roomId with
  | some room =>
    if room.hostId ≠ hostId then
      (st, [V3Out.send ws (V3Msg.errorMsg "Room already exists with different host")])
    else
      (st, V3Out.send ws (V3Msg.joined roomId Role.host hostId) ::
        (if room.currentGuestId = none then
          [V3Out.send ws (V3Msg.waitingForGuest roomId)] else []))
  | none =>
    let r := V3.createRoom st.roomManager roomId hostId defaultHostSettings now
    ({ st with roomManager := r.1 },
     V3Out.send ws (V3Msg.joined roomId Role.host hostId) ::
       (if r.2.currentGuestId = none then
         [V3Out.send ws (V3Msg.waitingForGuest roomId)] else []))

/-- `handleGuestJoin`: attach to the room (creating a session), reply to
the guest with the host settings, and notify the host; on failure reply
with a structured error. -/
def v3HandleGuestJoin (st : V3SignalingServer) (ws : ConnId)
    (roomId guestId : String) (now : ℕ) : V3SignalingServer × List V3Out :=
  match V3.getRoom st.roomManager roomId with
  | none => (st, [V3Out.send ws (V3Msg.errorMsg "Room not found")])
  | some room =>
    let r := V3.joinGuest st.roomManager roomId guestId now
    match r.2 with
    | none =>
      ({ st with roomManager := r.1 },
       [V3Out.send ws (V3Msg.errorMsg "Room already has a guest")])
    | some _ =>
      let st2 := { st with roomManager := r.1 }
      let outsHost :=
        match v3FindClientByRole st2 roomId Role.host with
        | some hostClient =>
          [V3Out.send hostClient.ws (V3Msg.guestJoined roomId guestId room.hostSettings),
           V3Out.send hostClient.ws (V3Msg.peerJoined guestId Role.guest)]
        | none => []
      (st2,
       V3Out.send ws (V3Msg.guestJoined roomId guestId room.hostSettings) ::
         outsHost ++ [V3Out.send ws (V3Msg.peerJoined room.hostId Role.host)])

/-- `handleJoin`: an already-registered identity is treated as a
reconnection — the prior connection is closed with reason "Reconnecting"
and removed (no departure event) — then the client is registered and the
role-specific join handling runs. -/
def v3HandleJoin (st : V3SignalingServer) (ws : ConnId)
    (roomId userId : String) (role : Role) (now : ℕ) :
    V3SignalingServer × List V3Out :=
  let evicts :=
    match st.clients.find? (fun c => c.userId == userId) with
    | some existing => [V3Out.closeConn existing.ws 1000 "Reconnecting"]
    | none => []
  let clients1 :=
    match st.clients.find? (fun c => c.userId == userId) with
    | some _ => st.clients.filter (fun c => c.userId ≠ userId)
    | none => st.clients
  let st2 := { st with clients := clients1 ++ [⟨ws, userId, roomId, role⟩] }
  match role with
  | Role.host =>
    let r := v3HandleHostJoin st2 ws roomId userId now
    (r.1, evicts ++ r.2)
  | Role.guest =>
    let r := v3HandleGuestJoin st2 ws roomId userId now
    (r.1, evicts ++ r.2)

/-- `handleLeave`: a host departure destroys the room and notifies the
guest; a guest departure ends the session, preserves the room, and
notifies the host; the client registration is removed. -/
def v3HandleLeave (st : V3SignalingServer) (roomId userId : String)
    (now : ℕ) : V3SignalingServer × List V3Out :=
  match st.clients.find? (fun c => c.userId == userId) with
  | none => (st, [])
  | some client =>
    if client.role = Role.host then
      let rm := (V3.destroyRoom st.roomManager roomId).1
      let outs :=
        match v3FindClientByRole st roomId Role.guest with
        | some gc => [V3Out.send gc.ws (V3Msg.peerLeft userId)]
        | none => []
      ({ clients := st.clients.filter (fun c => c.userId ≠ userId)
         roomManager := rm }, outs)
    else
      let rm := (V3.leaveGuest st.roomManager roomId userId now).1
      let outs :=
        match v3FindClientByRole st roomId Role.host with
        | some hc =>
          [V3Out.send hc.ws (V3Msg.guestLeft roomId userId),
           V3Out.send hc.ws (V3Msg.waitingForGuest roomId),
           V3Out.send hc.ws (V3Msg.peerLeft userId)]
        | none => []
      ({ clients := st.clients.filter (fun c => c.userId ≠ userId)
         roomManager := rm }, outs)

/-- `handleDisconnect`: resolve the client by socket and simulate a
leave. -/
def v3HandleDisconnect (st : V3SignalingServer) (ws : ConnId) (now : ℕ) :
    V3SignalingServer × List V3Out :=
  match st.clients.find? (fun c => c.ws == ws) with
  | none => (st, [])
  | some client => v3HandleLeave st client.roomId client.userId now

/-- A reachable V3 signaling state in which room "R" has been destroyed by
a host leave while the guest's connection is still registered. -/
def c4State : V3SignalingServer :=
  let st1 := (v3HandleJoin V3SignalingServer.init 1 "R" "h" Role.host 0).1
  let st2 := (v3HandleJoin st1 2 "R" "g" Role.guest 1).1
  (v3HandleLeave st2 "R" "h" 2).1

/-- C4 counterexample: the countdown performs no room-existence check.
In `c4State` the room "R" has been destroyed (the manager no longer knows
it), yet a countdown tick and the capture-now broadcast are still
delivered to the guest's connection — the remaining ticks are not
abandoned. -/
theorem c4_counterexample :
    V3.getRoom c4State.roomManager "R" = none ∧
    v3CountdownTick c4State "R" 3 =
      [V3Out.send 2 (V3Msg.countdownTick "R" 3)] ∧
    v3CaptureNow c4State "R" = [V3Out.send 2 (V3Msg.captureNow "R")] := by
  refine ⟨rfl, rfl, rfl⟩

/-- C4 (amended): each countdown tick (and the final capture-now) is
broadcast to every client whose registered room id matches, without
consulting the room manager at all: the broadcast is insensitive to the
manager state, so a client still registered to a destroyed room receives
the remaining ticks; a tick reaches no one only when no client remains
registered under that room id. -/
theorem c4_countdown_no_existence_check :
    (∀ st rid count (rm : V3RoomManager),
      v3CountdownTick { st with roomManager := rm } rid count =
        v3CountdownTick st rid count) ∧
    (∀ st rid (rm : V3RoomManager),
      v3CaptureNow { st with roomManager := rm } rid =
        v3CaptureNow st rid) ∧
    (∀ st rid count (c : Client), c ∈ st.clients → c.roomId = rid →
      V3Out.send c.ws (V3Msg.countdownTick rid count) ∈
        v3CountdownTick st rid count) ∧
    (∀ st rid (c : Client), c ∈ st.clients → c.roomId = rid →
      V3Out.send c.ws (V3Msg.captureNow rid) ∈ v3CaptureNow st rid) ∧
    (∀ st rid count, (st.clients.filter (fun c => c.roomId == rid)) = [] →
      v3CountdownTick st rid count = []) := by
  refine ⟨fun st rid count rm => rfl, fun st rid rm => rfl, ?_, ?_, ?_⟩
  · intro st rid count c hc hrid
    apply List.mem_map_of_mem
    rw [List.mem_filter]
    exact ⟨hc, by simp [hrid]⟩
  · intro st rid c hc hrid
    apply List.mem_map_of_mem
    rw [List.mem_filter]
    exact ⟨hc, by simp [hrid]⟩
  · intro st rid count hfe
    simp [v3CountdownTick, v3BroadcastToRoom, hfe]

/-- Witness for `c4_countdown_no_existence_check` at the concrete
destroyed-room state. -/
theorem c4_countdown_no_existence_check_witness :
    (⟨2, "g", "R", Role.guest⟩ : Client) ∈ c4State.clients ∧
    V3Out.send 2 (V3Msg.countdownTick "R" 3) ∈ v3CountdownTick c4State "R" 3 := by
  refine ⟨by decide, ?_⟩
  exact c4_countdown_no_existence_check.2.2.1 c4State "R" 3
    ⟨2, "g", "R", Role.guest⟩ (by decide) rfl

/-! ## Legacy signaling server (fixed-pair mode; C5, C9)

Embeds `SignalingServer.handleJoin` over the grace-period `RoomManager`.
This server never closes a superseded connection: a join with an
already-registered identity is rejected outright. -/

/-- `ClientConnection` from the legacy signaling server. -/
structure LClient where
  ws : ConnId
  userId : String
  roomId : Option String
  role : Option Role
deriving DecidableEq, Repr

/-- Legacy signaling messages relevant to the join flow. -/
inductive LMsg where
  | joinedHost (roomId userId : String) (guestId : Option String)
  | joinedGuest (roomId userId hostId : String)
  | peerJoined (userId : String) (role : Role)
  | peerLeft (userId : String)
  | errorMsg (message : String)
deriving DecidableEq, Repr

/-- Outbound sends of the legacy signaling server. -/
inductive LOut where
  | send (ws : ConnId) (msg : LMsg)
deriving DecidableEq, Repr

/-- State of the legacy signaling server. -/
structure LegacyServer where
  clients : List LClient
  roomManager : RoomManager

/-- `handleJoin` of the legacy server.  `freshId` stands for the id that
`generateRoomId` would produce if a room has to be created. -/
def legacyHandleJoin (st : LegacyServer) (ws : ConnId)
    (roomId userId : String) (role : Role) (now : ℕ) (freshId : String) :
    LegacyServer × List LOut :=
  if (st.clients.find? (fun c => c.userId == userId)).isSome then
    (st, [LOut.send ws (LMsg.errorMsg "User already connected")])
  else
    match role with
    | Role.host =>
      let rj :=
        if roomId ≠ "" then RM.rejoinRoomAsHost st.roomManager roomId userId
        else (st.roomManager, false)
      let rm2 := if rj.2 then rj.1 else RM.createRoom rj.1 freshId userId now
      let finalRoomId := if rj.2 then roomId else freshId
      let st2 : LegacyServer :=
        { clients := st.clients ++ [⟨ws, userId, some finalRoomId, some Role.host⟩]
          roomManager := rm2 }
      let resp :=
        match RM.getRoom rm2 finalRoomId with
        | some room => LMsg.joinedHost finalRoomId userId room.guestId
        | none => LMsg.joinedHost finalRoomId userId none
      (st2, [LOut.send ws resp])
    | Role.guest =>
      let r := RM.joinRoom st.roomManager roomId userId
      if r.2 then
        let st2 : LegacyServer :=
          { clients := st.clients ++ [⟨ws, userId, some roomId, some Role.guest⟩]
            roomManager := r.1 }
        match RM.getRoom r.1 roomId with
        | some room =>
          let outsHost :=
            match st2.clients.find? (fun c => c.userId == room.hostId) with
            | some hostClient =>
              [LOut.send hostClient.ws (LMsg.peerJoined userId Role.guest)]
            | none => []
          (st2, outsHost ++ [LOut.send ws (LMsg.joinedGuest roomId userId room.hostId)])
        | none => (st2, [])
      else
        ({ st with roomManager := r.1 },
         [LOut.send ws (LMsg.errorMsg "Failed to join room. Room may not exist or is full.")])

/-- Does a V3 output carry a departure (`peer-left`) event? -/
def isPeerLeftOut (o : V3Out) : Bool :=
  match o with
  | V3Out.send _ (V3Msg.peerLeft _) => true
  | _ => false

/-- `find?` skips a prefix on which the predicate never holds. -/
lemma find?_append_none {α : Type} (p : α → Bool) (l1 l2 : List α)
    (h : l1.find? p = none) : (l1 ++ l2).find? p = l2.find? p := by
  induction l1 with
  | nil => rfl
  | cons a l ih =>
    cases hp : p a with
    | true => simp [List.find?_cons, hp] at h
    | false =>
      simp only [List.find?_cons, hp] at h
      simp only [List.cons_append, List.find?_cons, hp]
      exact ih h

/-- Filtering away an identity makes a lookup for it fail. -/
lemma find?_filter_userId (l : List Client) (uid : String) :
    (l.filter (fun c => c.userId ≠ uid)).find? (fun c => c.userId == uid)
      = none := by
  rw [List.find?_eq_none]
  intro c hc hbe
  have h2 := (List.mem_filter.mp hc).2
  simp only [ne_eq, decide_not, Bool.not_eq_true', decide_eq_false_iff_not]
    at h2
  exact h2 (by simpa using hbe)

/-- Host-join handling never changes the client registry. -/
lemma v3HandleHostJoin_clients (st : V3SignalingServer) (ws : ConnId)
    (rid uid : String) (now : ℕ) :
    (v3HandleHostJoin st ws rid uid now).1.clients = st.clients := by
  unfold v3HandleHostJoin
  cases V3.getRoom st.roomManager rid with
  | none => rfl
  | some room =>
    dsimp only
    split
    · rfl
    · rfl

/-- Guest-join handling never changes the client registry. -/
lemma v3HandleGuestJoin_clients (st : V3SignalingServer) (ws : ConnId)
    (rid uid : String) (now : ℕ) :
    (v3HandleGuestJoin st ws rid uid now).1.clients = st.clients := by
  unfold v3HandleGuestJoin
  cases V3.getRoom st.roomManager rid with
  | none => rfl
  | some room =>
    dsimp only
    cases (V3.joinGuest st.roomManager rid uid now).2 with
    | none => rfl
    | some s => dsimp only

/-- After a reconnecting join, the registry is the old registry purged of
the identity, with the fresh client appended. -/
lemma v3HandleJoin_clients (st : V3SignalingServer) (ws : ConnId)
    (rid uid : String) (role : Role) (now : ℕ) (old : Client)
    (hfind : st.clients.find? (fun c => c.userId == uid) = some old) :
    (v3HandleJoin st ws rid uid role now).1.clients
      = st.clients.filter (fun c => c.userId ≠ uid) ++ [⟨ws, uid, rid, role⟩] := by
  unfold v3HandleJoin
  rw [hfind]
  dsimp only
  cases role with
  | host => exact v3HandleHostJoin_clients _ _ _ _ _
  | guest => exact v3HandleGuestJoin_clients _ _ _ _ _

/-- Host-join outputs carry no departure event. -/
lemma v3HandleHostJoin_no_peerLeft (st : V3SignalingServer) (ws : ConnId)
    (rid uid : String) (now : ℕ) :
    ∀ o ∈ (v3HandleHostJoin st ws rid uid now).2, isPeerLeftOut o = false := by
  intro o ho
  cases hroom : V3.getRoom st.roomManager rid with
  | some room =>
    simp only [v3HandleHostJoin, hroom] at ho
    split at ho
    · simp only [List.mem_singleton] at ho
      subst ho; rfl
    · rcases List.mem_cons.mp ho with h | h
      · subst h; rfl
      · split at h
        · simp only [List.mem_singleton] at h
          subst h; rfl
        · simp at h
  | none =>
    simp only [v3HandleHostJoin, hroom] at ho
    rcases List.mem_cons.mp ho with h | h
    · subst h; rfl
    · split at h
      · simp only [List.mem_singleton] at h
        subst h; rfl
      · simp at h

/-- Guest-join outputs carry no departure event. -/
lemma v3HandleGuestJoin_no_peerLeft (st : V3SignalingServer) (ws : ConnId)
    (rid uid : String) (now : ℕ) :
    ∀ o ∈ (v3HandleGuestJoin st ws rid uid now).2, isPeerLeftOut o = false := by
  intro o ho
  cases hroom : V3.getRoom st.roomManager rid with
  | none =>
    simp only [v3HandleGuestJoin, hroom] at ho
    simp only [List.mem_singleton] at ho
    subst ho; rfl
  | some room =>
    simp only [v3HandleGuestJoin, hroom] at ho
    cases hj : (V3.joinGuest st.roomManager rid uid now).2 with
    | none =>
      simp only [hj] at ho
      simp only [List.mem_singleton] at ho
      subst ho; rfl
    | some s =>
      simp only [hj] at ho
      rcases List.mem_cons.mp ho with h | h
      · subst h; rfl
      · rcases List.mem_append.mp h with h | h
        · split at h
          · rcases List.mem_cons.mp h with h | h
            · subst h; rfl
            · simp only [List.mem_singleton] at h
              subst h; rfl
          · simp at h
        · simp only [List.mem_singleton] at h
          subst h; rfl

/-- A legacy server state with user "alice" registered on connection 1
inside room "R". -/
def c5LegacyState : LegacyServer :=
  { clients := [⟨1, "alice", some "R", some Role.host⟩]
    roomManager := RM.createRoom RoomManager.init "R" "alice" 0 }

/-- C5 counterexample: the legacy signaling server does NOT treat a join
carrying an already-registered identity as a reconnection.  It replies
with the error "User already connected" and leaves the state unchanged:
the prior connection stays registered, the new connection is not
registered, and no connection is closed (the reply is the only output). -/
theorem c5_counterexample :
    legacyHandleJoin c5LegacyState 2 "R" "alice" Role.host 1 "Z"
      = (c5LegacyState,
         [LOut.send 2 (LMsg.errorMsg "User already connected")]) := by
  rfl

/-- C5 (amended): duplicate-identity join handling differs by server.
(a) The legacy signaling server rejects the join: whenever the identity
is registered, the result is the unchanged state plus a single
"User already connected" error reply — no eviction, no registration.
(b) The V3 signaling server treats it as a reconnection: the first output
closes the prior connection with code 1000 and reason "Reconnecting"; no
departure (peer-left) event appears among the outputs; the identity ends
up registered to the new connection; and if the evicted socket differed
from the new one and belonged only to that identity, a later disconnect
of the evicted socket is a no-op (no departure is emitted then either). -/
theorem c5_reconnection_vs_rejection :
    (∀ (st : LegacyServer) (ws : ConnId) (roomId userId : String)
       (role : Role) (now : ℕ) (freshId : String),
       (st.clients.find? (fun c => c.userId == userId)).isSome = true →
       legacyHandleJoin st ws roomId userId role now freshId
         = (st, [LOut.send ws (LMsg.errorMsg "User already connected")])) ∧
    (∀ (st : V3SignalingServer) (ws : ConnId) (roomId userId : String)
       (role : Role) (now now2 : ℕ) (old : Client),
       st.clients.find? (fun c => c.userId == userId) = some old →
       (∃ rest, (v3HandleJoin st ws roomId userId role now).2
           = V3Out.closeConn old.ws 1000 "Reconnecting" :: rest) ∧
       (∀ o ∈ (v3HandleJoin st ws roomId userId role now).2,
           isPeerLeftOut o = false) ∧
       (v3HandleJoin st ws roomId userId role now).1.clients.find?
           (fun c => c.userId == userId) = some ⟨ws, userId, roomId, role⟩ ∧
       (ws ≠ old.ws →
        (∀ c ∈ st.clients, c.ws = old.ws → c.userId = userId) →
        v3HandleDisconnect (v3HandleJoin st ws roomId userId role now).1
            old.ws now2
          = ((v3HandleJoin st ws roomId userId role now).1, []))) := by
  constructor
  · intro st ws roomId userId role now freshId h
    unfold legacyHandleJoin
    rw [if_pos h]
  · intro st ws roomId userId role now now2 old hfind
    have hcl := v3HandleJoin_clients st ws roomId userId role now old hfind
    refine ⟨?_, ?_, ?_, ?_⟩
    · unfold v3HandleJoin
      rw [hfind]
      dsimp only
      cases role with
      | host => exact ⟨_, rfl⟩
      | guest => exact ⟨_, rfl⟩
    · intro o ho
      unfold v3HandleJoin at ho
      rw [hfind] at ho
      dsimp only at ho
      cases role with
      | host =>
        rcases List.mem_append.mp ho with h | h
        · simp only [List.mem_singleton] at h
          subst h; rfl
        · exact v3HandleHostJoin_no_peerLeft _ _ _ _ _ o h
      | guest =>
        rcases List.mem_append.mp ho with h | h
        · simp only [List.mem_singleton] at h
          subst h; rfl
        · exact v3HandleGuestJoin_no_peerLeft _ _ _ _ _ o h
    · rw [hcl, find?_append_none _ _ _ (find?_filter_userId st.clients userId)]
      simp [List.find?_cons]
    · intro hws huniq
      have hnone : ((st.clients.filter (fun c => c.userId ≠ userId))
            ++ ([⟨ws, userId, roomId, role⟩] : List Client)).find?
            (fun (c : Client) => c.ws == old.ws) = none := by
        rw [List.find?_eq_none]
        intro c hc hbe
        have hcw : c.ws = old.ws := by simpa using hbe
        rcases List.mem_append.mp hc with h | h
        · have h1 := (List.mem_filter.mp h).1
          have h2 := (List.mem_filter.mp h).2
          simp only [ne_eq, decide_not, Bool.not_eq_true',
            decide_eq_false_iff_not] at h2
          exact h2 (huniq c h1 hcw)
        · simp only [List.mem_singleton] at h
          subst h
          exact hws hcw
      unfold v3HandleDisconnect
      rw [hcl, hnone]

/-- A V3 signaling state with user "bob" registered on connection 7 as
the host of room "S". -/
def c5V3State : V3SignalingServer :=
  (v3HandleJoin V3SignalingServer.init 7 "S" "bob" Role.host 0).1

theorem c5_reconnection_vs_rejection_witness :
    (c5LegacyState.clients.find? (fun c => c.userId == "alice")).isSome
        = true ∧
    legacyHandleJoin c5LegacyState 2 "X" "alice" Role.guest 1 "Z"
      = (c5LegacyState,
         [LOut.send 2 (LMsg.errorMsg "User already connected")]) ∧
    (∃ rest, (v3HandleJoin c5V3State 8 "S" "bob" Role.host 1).2
        = V3Out.closeConn 7 1000 "Reconnecting" :: rest) ∧
    v3HandleDisconnect (v3HandleJoin c5V3State 8 "S" "bob" Role.host 1).1 7 2
      = ((v3HandleJoin c5V3State 8 "S" "bob" Role.host 1).1, []) := by
  have h := c5_reconnection_vs_rejection
  have hfind : c5V3State.clients.find? (fun c => c.userId == "bob")
      = some ⟨7, "bob", "S", Role.host⟩ := rfl
  have h2 := h.2 c5V3State 8 "S" "bob" Role.host 1 2
    ⟨7, "bob", "S", Role.host⟩ hfind
  exact ⟨rfl, h.1 c5LegacyState 2 "X" "alice" Role.guest 1 "Z" rfl,
    h2.1, h2.2.2.2 (by decide) (by decide)⟩

/-- A failed legacy `joinRoom` leaves the manager unchanged. -/
lemma joinRoom_fail_unchanged (m : RoomManager) (rid gid : String)
    (h : (RM.joinRoom m rid gid).2 = false) :
    (RM.joinRoom m rid gid).1 = m := by
  cases hr : m.rooms rid with
  | none => simp only [RM.joinRoom, hr]
  | some room =>
    simp only [RM.joinRoom, hr] at h ⊢
    by_cases hc : room.guestId.isSome ∧ room.guestId ≠ some gid
    · rw [if_pos hc]
    · rw [if_neg hc] at h
      simp at h

/-- A failed V3 guest join replies with a structured error and touches
only the room manager, not the client registry. -/
lemma v3HandleGuestJoin_fail (st : V3SignalingServer) (ws : ConnId)
    (rid uid : String) (now : ℕ)
    (hfail : V3.getRoom st.roomManager rid = none ∨
      (V3.joinGuest st.roomManager rid uid now).2 = none) :
    ∃ emsg rm2, v3HandleGuestJoin st ws rid uid now
      = ({ st with roomManager := rm2 },
         [V3Out.send ws (V3Msg.errorMsg emsg)]) := by
  cases hroom : V3.getRoom st.roomManager rid with
  | none =>
    refine ⟨"Room not found", st.roomManager, ?_⟩
    simp only [v3HandleGuestJoin, hroom]
  | some room =>
    rcases hfail with h | h
    · rw [hroom] at h
      cases h
    · refine ⟨"Room already has a guest",
        (V3.joinGuest st.roomManager rid uid now).1, ?_⟩
      simp only [v3HandleGuestJoin, hroom, h]

/-- A V3 signaling state in which room "R" has host "h" (connection 1)
and guest "g" (connection 2). -/
def c9V3State : V3SignalingServer :=
  let st1 := (v3HandleJoin V3SignalingServer.init 1 "R" "h" Role.host 0).1
  (v3HandleJoin st1 2 "R" "g" Role.guest 1).1

/-- C9 counterexample: on the V3 signaling server a failing guest join
(the guest slot of room "R" is already occupied) does reply with a
structured error, but the connection IS registered as a member: it
appears in the client registry and receives subsequent room broadcasts
(here the capture broadcast reaches connection 3). -/
theorem c9_counterexample :
    (v3HandleJoin c9V3State 3 "R" "g2" Role.guest 2).2
      = [V3Out.send 3 (V3Msg.errorMsg "Room already has a guest")] ∧
    (v3HandleJoin c9V3State 3 "R" "g2" Role.guest 2).1.clients
      = [⟨1, "h", "R", Role.host⟩, ⟨2, "g", "R", Role.guest⟩,
         ⟨3, "g2", "R", Role.guest⟩] ∧
    v3CaptureNow (v3HandleJoin c9V3State 3 "R" "g2" Role.guest 2).1 "R"
      = [V3Out.send 1 (V3Msg.captureNow "R"),
         V3Out.send 2 (V3Msg.captureNow "R"),
         V3Out.send 3 (V3Msg.captureNow "R")] := by
  refine ⟨rfl, rfl, rfl⟩

/-- C9 (amended): the claim holds for the legacy signaling server but not
for the V3 one.  (a) Legacy: a guest join whose identity is fresh and
whose `joinRoom` fails leaves the state unchanged and replies with the
error "Failed to join room. Room may not exist or is full."; the
connection is never registered.  (b) V3: a guest join that fails (room
absent, or guest slot occupied) replies with a structured error, yet the
connection has already been registered under the target room id, so it
stays in the client registry and receives every subsequent broadcast to
that room. -/
theorem c9_guest_join_failure :
    (∀ (st : LegacyServer) (ws : ConnId) (roomId userId : String)
       (now : ℕ) (freshId : String),
       st.clients.find? (fun c => c.userId == userId) = none →
       (RM.joinRoom st.roomManager roomId userId).2 = false →
       legacyHandleJoin st ws roomId userId Role.guest now freshId
         = (st, [LOut.send ws (LMsg.errorMsg
             "Failed to join room. Room may not exist or is full.")])) ∧
    (∀ (st : V3SignalingServer) (ws : ConnId) (roomId userId : String)
       (now : ℕ),
       st.clients.find? (fun c => c.userId == userId) = none →
       (V3.getRoom st.roomManager roomId = none ∨
        (V3.joinGuest st.roomManager roomId userId now).2 = none) →
       ∃ emsg,
         (v3HandleJoin st ws roomId userId Role.guest now).2
           = [V3Out.send ws (V3Msg.errorMsg emsg)] ∧
         (v3HandleJoin st ws roomId userId Role.guest now).1.clients
           = st.clients ++ [⟨ws, userId, roomId, Role.guest⟩] ∧
         ∀ msg, V3Out.send ws msg ∈ v3BroadcastToRoom
           (v3HandleJoin st ws roomId userId Role.guest now).1 roomId msg) := by
  constructor
  · intro st ws roomId userId now freshId hfresh hfail
    unfold legacyHandleJoin
    rw [hfresh]
    rw [if_neg (by simp)]
    dsimp only
    rw [hfail]
    rw [if_neg (by simp)]
    rw [joinRoom_fail_unchanged st.roomManager roomId userId hfail]
  · intro st ws roomId userId now hfresh hfail
    unfold v3HandleJoin
    rw [hfresh]
    dsimp only
    obtain ⟨emsg, rm2, heq⟩ :=
      v3HandleGuestJoin_fail
        { st with clients := st.clients ++ [⟨ws, userId, roomId, Role.guest⟩] }
        ws roomId userId now hfail
    refine ⟨emsg, ?_, ?_, ?_⟩
    · rw [heq]
      simp
    · rw [heq]
    · intro msg
      rw [heq]
      have hmem : (⟨ws, userId, roomId, Role.guest⟩ : Client)
          ∈ st.clients ++ [⟨ws, userId, roomId, Role.guest⟩] :=
        List.mem_append_right _ (by simp)
      exact List.mem_map_of_mem _ (List.mem_filter.mpr ⟨hmem, by simp⟩)

theorem c9_guest_join_failure_witness :
    (legacyHandleJoin ⟨[], RoomManager.init⟩ 5 "R" "g" Role.guest 0 "Z"
      = (⟨[], RoomManager.init⟩,
         [LOut.send 5 (LMsg.errorMsg
           "Failed to join room. Room may not exist or is full.")])) ∧
    (∃ emsg,
      (v3HandleJoin V3SignalingServer.init 5 "R" "g" Role.guest 0).2
        = [V3Out.send 5 (V3Msg.errorMsg emsg)] ∧
      (v3HandleJoin V3SignalingServer.init 5 "R" "g" Role.guest 0).1.clients
        = V3SignalingServer.init.clients ++ [⟨5, "g", "R", Role.guest⟩] ∧
      ∀ msg, V3Out.send 5 msg ∈ v3BroadcastToRoom
        (v3HandleJoin V3SignalingServer.init 5 "R" "g" Role.guest 0).1
        "R" msg) := by
  exact ⟨c9_guest_join_failure.1 ⟨[], RoomManager.init⟩ 5 "R" "g" 0 "Z" rfl rfl,
    c9_guest_join_failure.2 V3SignalingServer.init 5 "R" "g" 0 rfl (Or.inl rfl)⟩

end VShot
